import Mathlib

/-!
# ERC-20 style token chaincode (`src/chaincode/erc20token.go`)

A shallow embedding of the `TokenContract` chaincode and proofs about it.

The program is embedded twice, with the same control flow.

* The exact model (namespace `Erc20`) takes a `float64` amount as an exact
  rational (`ℚ`), and `json.Marshal` never fails in it.  It carries C1, whose
  wording takes amounts as exact numbers, and the claims about the order of the
  checks, the keys read and written, comparisons of amounts and concrete values
  that `float64` represents exactly (C3, C4, C9, C12, C14, C16 to C20).
* The `float64` model (namespace `Erc20.Fp`) takes an amount as an `F64`, with
  rounding, overflow to an infinity and NaN, and keeps every `json.Marshal`
  error return.  It carries the claims that speak of sums and differences of
  arbitrary amounts, or of every error an operation can return (C2, C5 to C8,
  C10, C11, C13, C15).

Modelling decisions common to both, all visible in the definitions below:

* A nil Go map is `none` at the level of the `User` record (reading a nil map
  yields the zero value, assigning to it panics).  A non-nil
  `map[string]float64` is a function `String → Option ℚ` in the exact model and
  an association list in the `float64` model.
* A non-nil byte string held in the world state is represented by what
  `json.Unmarshal` yields on it for the two struct targets of the program,
  `User` and `Token`.  `json.Marshal` of a struct is the byte string whose two
  decodings are dictated by the struct tags: the tag `name` is shared by both
  structs, no other tag is.
* The stub is a key/value function together with two fault predicates saying
  for which keys `GetState` / `PutState` report an error.  A successful
  `PutState` is visible to a later `GetState`; the only read that follows a
  write inside one operation is the admin read of `MintTokens`.
* A mutating operation yields an `Outcome` (nil error, a returned error, or a
  runtime panic) and the stub as it stands when the operation stops.
-/

namespace Erc20

/-! ## The exact model

Amounts are exact rationals and `json.Marshal` does not fail.  Rounding,
overflow, NaN and the encode errors are in the model `Fp` further down. -/

/-- Go type `map[string]float64`, when not nil. -/
abbrev AllowanceMap := String → Option ℚ

/-- Go struct `Token` (lines 15-20). -/
structure Token where
  Symbol : String
  Name : String
  TotalSupply : ℚ
  Admin : String

/-- Go struct `User` (lines 22-26); `Allowances = none` is the nil map. -/
structure User where
  Name : String
  Balance : ℚ
  Allowances : Option AllowanceMap

/-- The JSON object keys of `Token`, from its struct tags, in field order. -/
def Token.jsonTags : List String := ["symbol", "name", "totalSupply", "admin"]

/-- The JSON object keys of `User`, from its struct tags, in field order. -/
def User.jsonTags : List String := ["name", "balance", "allownaces"]

/-- Zero value of `User`, as produced by `var u User` or `User{}`. -/
def User.zero : User := ⟨"", 0, none⟩

/-- Zero value of `Token`, as produced by `var token Token`. -/
def Token.zero : Token := ⟨"", "", 0, ""⟩

/-- Result of `make(map[string]float64)`: a non-nil map with no entry. -/
def emptyMap : AllowanceMap := fun _ => none

/-- Go expression `m[k]` in its two-result form on a possibly nil map. -/
def mapLookup (m : Option AllowanceMap) (k : String) : ℚ × Bool :=
  match m with
  | none => (0, false)
  | some f =>
    match f k with
    | none => (0, false)
    | some v => (v, true)

/-- Go statement `m[k] += d` on a non-nil map (a missing entry reads as 0). -/
def mapAdd (m : AllowanceMap) (k : String) (d : ℚ) : AllowanceMap :=
  fun j => if j = k then some ((m k).getD 0 + d) else m j

/-- A non-nil byte string, represented by its decoding into each of the two
struct types (`none`: `json.Unmarshal` returns an error). -/
structure Bytes where
  asUser : Option User
  asToken : Option Token

/-- Encoding `json.Marshal(user)`: decodes back to `user`; read as a `Token`
only the key `name` matches a field. -/
def marshalUser (u : User) : Bytes :=
  ⟨some u, some ⟨"", u.Name, 0, ""⟩⟩

/-- Encoding `json.Marshal(token)`: decodes back to `token`; read as a `User`
only the key `name` matches a field, the map stays nil. -/
def marshalToken (t : Token) : Bytes :=
  ⟨some ⟨t.Name, 0, none⟩, some t⟩

/-- Decoding `json.Unmarshal(data, &user)` into a zero `User`; nil data is a
syntax error. -/
def unmarshalUser (data : Option Bytes) : Option User :=
  match data with
  | none => none
  | some b => b.asUser

/-- Decoding `json.Unmarshal(data, &token)` into a zero `Token`. -/
def unmarshalToken (data : Option Bytes) : Option Token :=
  match data with
  | none => none
  | some b => b.asToken

/-- World state: key to stored bytes, `none` when the key is absent. -/
abbrev Store := String → Option Bytes

/-- The chaincode stub: the world state and the keys on which the two stub
calls report an error. -/
structure Stub where
  state : Store
  getFails : String → Bool
  putFails : String → Bool

/-- Store update by one successful write. -/
def Store.put (s : Store) (key : String) (value : Bytes) : Store :=
  fun k => if k = key then some value else s k

/-- Stub call `GetState(key)`: `none` is a reported error, `some none` a
missing key. -/
def Stub.GetState (ctx : Stub) (key : String) : Option (Option Bytes) :=
  if ctx.getFails key then none else some (ctx.state key)

/-- Stub call `PutState(key, value)`: `none` is a reported error. -/
def Stub.PutState (ctx : Stub) (key : String) (value : Bytes) : Option Stub :=
  if ctx.putFails key then none
  else some ⟨ctx.state.put key value, ctx.getFails, ctx.putFails⟩

/-- A stub over store `s` whose calls never report an error. -/
def reliable (s : Store) : Stub := ⟨s, fun _ => false, fun _ => false⟩

/-- The well-known key of the token metadata (line 28). -/
def tokenKey : String := "TOKEN"

/-- The errors the operations return, one per message in the source.  The
`marshal...` constructors are the `failed to marshal` returns; they occur only
in the `float64` model (`Fp`), since `json.Marshal` of a `Token` or `User` does
not fail on exact numbers. -/
inductive Err where
  | readWorldState
  | userAlreadyExists
  | storeToken
  | tokenAlreadyInitialized
  | storeAdminBalance
  | tokenNotFound
  | unmarshalTokenData
  | onlyAdminCanMint
  | updateTokenSupply
  | unmarshalAdminAccount
  | updateAdminBalance
  | ownerNotFound
  | unmarshalOwnerData
  | insufficientBalanceWithOwner
  | updateOwnerAllowances
  | senderNotFound
  | unmarshalSenderData
  | insufficientBalance
  | unmarshalReceiverData
  | updateSenderBalance
  | updateReceiverBalance
  | userNotFound
  | unmarshalUserData
  | insufficientBalanceToBurn
  | updateUserBalance
  | spenderAllowanceExceeded
  | unmarshalRecipientData
  | updateOwnerBalance
  | updateRecipientBalance
  | updateSpenderBalance
  | marshalToken
  | marshalAdminBalance
  | marshalTokenData
  | marshalAdminAccount
  | marshalOwnerData
  | marshalSenderData
  | marshalReceiverData
  | marshalUserData
  | marshalRecipientData
  deriving DecidableEq, Repr

/-- Whether the error is one of the `failed to marshal` returns (lines 45, 72,
83, 113, 136, 180, 190, 231, 236, 302, 361, 365 and 369). -/
def Err.isMarshal : Err → Bool
  | .marshalToken => true
  | .marshalAdminBalance => true
  | .marshalTokenData => true
  | .marshalAdminAccount => true
  | .marshalOwnerData => true
  | .marshalSenderData => true
  | .marshalReceiverData => true
  | .marshalUserData => true
  | .marshalRecipientData => true
  | _ => false

/-- How a mutating operation ends: `ok` is a nil error, `panic` the runtime
fault of assigning to an entry of a nil map. -/
inductive Outcome where
  | ok
  | error (e : Err)
  | panic
  deriving DecidableEq, Repr

/-- Operation `Createuser` (lines 30-54). -/
def Createuser (ctx : Stub) (name : String) : Outcome × Stub :=
  match ctx.GetState name with
  | none => (.error .readWorldState, ctx)
  | some (some _) => (.error .userAlreadyExists, ctx)
  | some none =>
    let user : User := ⟨name, 0, some emptyMap⟩
    match ctx.PutState name (marshalUser user) with
    | none => (.error .storeToken, ctx)
    | some ctx1 => (.ok, ctx1)

/-- Operation `InitLedger` (lines 56-92). -/
def InitLedger (ctx : Stub) (symbol name : String) (initialSupply : ℚ)
    (admin : String) : Outcome × Stub :=
  match ctx.GetState tokenKey with
  | none => (.error .readWorldState, ctx)
  | some (some _) => (.error .tokenAlreadyInitialized, ctx)
  | some none =>
    let token : Token := ⟨symbol, name, initialSupply, admin⟩
    match ctx.PutState tokenKey (marshalToken token) with
    | none => (.error .storeToken, ctx)
    | some ctx1 =>
      let adminBalance : User := ⟨admin, initialSupply, some emptyMap⟩
      match ctx1.PutState admin (marshalUser adminBalance) with
      | none => (.error .storeAdminBalance, ctx1)
      | some ctx2 => (.ok, ctx2)

/-- The admin account `MintTokens` works on (lines 121-130): the stored record
when the read succeeds and finds one, a fresh record otherwise; `none` when
the stored record does not decode. -/
def mintAdminAccount (adminRead : Option (Option Bytes)) : Option User :=
  match adminRead with
  | some (some adminData) => unmarshalUser (some adminData)
  | _ => some ⟨"", 0, some emptyMap⟩

/-- Operation `MintTokens` (lines 94-145). -/
def MintTokens (ctx : Stub) (admin : String) (amount : ℚ) : Outcome × Stub :=
  match ctx.GetState tokenKey with
  | none => (.error .tokenNotFound, ctx)
  | some none => (.error .tokenNotFound, ctx)
  | some (some tokenData) =>
    match unmarshalToken (some tokenData) with
    | none => (.error .unmarshalTokenData, ctx)
    | some token =>
      if token.Admin ≠ admin then (.error .onlyAdminCanMint, ctx)
      else
        let token1 : Token := ⟨token.Symbol, token.Name, token.TotalSupply + amount, token.Admin⟩
        match ctx.PutState tokenKey (marshalToken token1) with
        | none => (.error .updateTokenSupply, ctx)
        | some ctx1 =>
          match mintAdminAccount (ctx1.GetState admin) with
          | none => (.error .unmarshalAdminAccount, ctx1)
          | some adminAccount =>
            let adminAccount1 : User :=
              ⟨adminAccount.Name, adminAccount.Balance + amount, adminAccount.Allowances⟩
            match ctx1.PutState admin (marshalUser adminAccount1) with
            | none => (.error .updateAdminBalance, ctx1)
            | some ctx2 => (.ok, ctx2)

/-- Operation `ApproveSpender` (lines 147-199).  The second read tests
`ownerData == nil` again (line 163), which is false there, so only a reported
read error stops at that test; a missing spender reaches `json.Unmarshal`
with nil data. -/
def ApproveSpender (ctx : Stub) (owner spender : String) (amount : ℚ) : Outcome × Stub :=
  match ctx.GetState owner with
  | none => (.error .ownerNotFound, ctx)
  | some none => (.error .ownerNotFound, ctx)
  | some (some ownerData) =>
    match unmarshalUser (some ownerData) with
    | none => (.error .unmarshalOwnerData, ctx)
    | some ownerAccount =>
      if ownerAccount.Balance < amount then (.error .insufficientBalanceWithOwner, ctx)
      else
        match ctx.GetState spender with
        | none => (.error .ownerNotFound, ctx)
        | some spenderData =>
          match unmarshalUser spenderData with
          | none => (.error .unmarshalOwnerData, ctx)
          | some spenderInfo =>
            if ownerAccount.Balance < amount then (.error .insufficientBalanceWithOwner, ctx)
            else
              match ownerAccount.Allowances with
              | none => (.panic, ctx)
              | some allowances =>
                let ownerAccount1 : User :=
                  ⟨ownerAccount.Name, ownerAccount.Balance, some (mapAdd allowances spender amount)⟩
                let spenderInfo1 : User :=
                  ⟨spenderInfo.Name, spenderInfo.Balance + amount, spenderInfo.Allowances⟩
                match ctx.PutState owner (marshalUser ownerAccount1) with
                | none => (.error .updateOwnerAllowances, ctx)
                | some ctx1 =>
                  match ctx1.PutState spender (marshalUser spenderInfo1) with
                  | none => (.error .updateOwnerAllowances, ctx1)
                  | some ctx2 => (.ok, ctx2)

/-- The receiving account of a transfer (lines 217-224 and 348-355): the
stored record when the read succeeds and finds one, the zero `User`
otherwise; `none` when the stored record does not decode. -/
def receiverAccount (toRead : Option (Option Bytes)) : Option User :=
  match toRead with
  | some (some toData) => unmarshalUser (some toData)
  | _ => some User.zero

/-- Operation `TransferTokens` (lines 201-250). -/
def TransferTokens (ctx : Stub) (src dst : String) (amount : ℚ) : Outcome × Stub :=
  match ctx.GetState src with
  | none => (.error .senderNotFound, ctx)
  | some none => (.error .senderNotFound, ctx)
  | some (some fromData) =>
    match unmarshalUser (some fromData) with
    | none => (.error .unmarshalSenderData, ctx)
    | some sender =>
      if sender.Balance < amount then (.error .insufficientBalance, ctx)
      else
        match receiverAccount (ctx.GetState dst) with
        | none => (.error .unmarshalReceiverData, ctx)
        | some receiver =>
          let sender1 : User := ⟨sender.Name, sender.Balance - amount, sender.Allowances⟩
          let receiver1 : User := ⟨receiver.Name, receiver.Balance + amount, receiver.Allowances⟩
          match ctx.PutState src (marshalUser sender1) with
          | none => (.error .updateSenderBalance, ctx)
          | some ctx1 =>
            match ctx1.PutState dst (marshalUser receiver1) with
            | none => (.error .updateReceiverBalance, ctx1)
            | some ctx2 => (.ok, ctx2)

/-- Query `GetUser` (lines 267-280). -/
def GetUser (ctx : Stub) (user : String) : Except Err User :=
  match ctx.GetState user with
  | none => .error .userNotFound
  | some none => .error .userNotFound
  | some (some userData) =>
    match unmarshalUser (some userData) with
    | none => .error .unmarshalUserData
    | some userAccount => .ok userAccount

/-- Query `GetBalance` (lines 252-265). -/
def GetBalance (ctx : Stub) (user : String) : Except Err ℚ :=
  match ctx.GetState user with
  | none => .error .userNotFound
  | some none => .error .userNotFound
  | some (some userData) =>
    match unmarshalUser (some userData) with
    | none => .error .unmarshalUserData
    | some userAccount => .ok userAccount.Balance

/-- Operation `BurnTokens` (lines 282-311). -/
def BurnTokens (ctx : Stub) (user : String) (amount : ℚ) : Outcome × Stub :=
  match ctx.GetState user with
  | none => (.error .userNotFound, ctx)
  | some none => (.error .userNotFound, ctx)
  | some (some userData) =>
    match unmarshalUser (some userData) with
    | none => (.error .unmarshalUserData, ctx)
    | some userAccount =>
      if userAccount.Balance < amount then (.error .insufficientBalanceToBurn, ctx)
      else
        let userAccount1 : User :=
          ⟨userAccount.Name, userAccount.Balance - amount, userAccount.Allowances⟩
        match ctx.PutState user (marshalUser userAccount1) with
        | none => (.error .updateUserBalance, ctx)
        | some ctx1 => (.ok, ctx1)

/-- Operation `TransferFromApprovedSpenders` (lines 313-386).  As in
`ApproveSpender` the second read tests `ownerData == nil` (line 326).  The
allowance map is not nil once the entry test of line 337 has passed. -/
def TransferFromApprovedSpenders (ctx : Stub) (owner spender recipient : String)
    (amount : ℚ) : Outcome × Stub :=
  match ctx.GetState owner with
  | none => (.error .ownerNotFound, ctx)
  | some none => (.error .ownerNotFound, ctx)
  | some (some ownerData) =>
    match unmarshalUser (some ownerData) with
    | none => (.error .unmarshalOwnerData, ctx)
    | some ownerAccount =>
      match ctx.GetState spender with
      | none => (.error .ownerNotFound, ctx)
      | some spenderData =>
        match unmarshalUser spenderData with
        | none => (.error .unmarshalOwnerData, ctx)
        | some spenderUser =>
          let allowance := (mapLookup ownerAccount.Allowances spender).1
          let ok := (mapLookup ownerAccount.Allowances spender).2
          if !ok || allowance < amount then (.error .spenderAllowanceExceeded, ctx)
          else if ownerAccount.Balance < amount then (.error .insufficientBalance, ctx)
          else
            match ownerAccount.Allowances with
            | none => (.panic, ctx)
            | some allowances =>
              let allowances1 := mapAdd (mapAdd allowances spender (-amount)) recipient amount
              match receiverAccount (ctx.GetState recipient) with
              | none => (.error .unmarshalRecipientData, ctx)
              | some recipientAccount =>
                let ownerAccount1 : User :=
                  ⟨ownerAccount.Name, ownerAccount.Balance, some allowances1⟩
                let spenderUser1 : User :=
                  ⟨spenderUser.Name, spenderUser.Balance - amount, spenderUser.Allowances⟩
                let recipientAccount1 : User :=
                  ⟨recipientAccount.Name, recipientAccount.Balance + amount,
                    recipientAccount.Allowances⟩
                match ctx.PutState owner (marshalUser ownerAccount1) with
                | none => (.error .updateOwnerBalance, ctx)
                | some ctx1 =>
                  match ctx1.PutState recipient (marshalUser recipientAccount1) with
                  | none => (.error .updateRecipientBalance, ctx1)
                  | some ctx2 =>
                    match ctx2.PutState spender (marshalUser spenderUser1) with
                    | none => (.error .updateSpenderBalance, ctx2)
                    | some ctx3 => (.ok, ctx3)

/-- One invocation of a mutating operation with its arguments. -/
inductive Call where
  | createuser (name : String)
  | initLedger (symbol name : String) (initialSupply : ℚ) (admin : String)
  | mintTokens (admin : String) (amount : ℚ)
  | transferTokens (src dst : String) (amount : ℚ)
  | burnTokens (user : String) (amount : ℚ)
  | approveSpender (owner spender : String) (amount : ℚ)
  | transferFrom (owner spender recipient : String) (amount : ℚ)

/-- Dispatch of an invocation to its operation. -/
def Call.run (ctx : Stub) : Call → Outcome × Stub
  | .createuser name => Createuser ctx name
  | .initLedger symbol name initialSupply admin => InitLedger ctx symbol name initialSupply admin
  | .mintTokens admin amount => MintTokens ctx admin amount
  | .transferTokens src dst amount => TransferTokens ctx src dst amount
  | .burnTokens user amount => BurnTokens ctx user amount
  | .approveSpender owner spender amount => ApproveSpender ctx owner spender amount
  | .transferFrom owner spender recipient amount =>
    TransferFromApprovedSpenders ctx owner spender recipient amount

/-- The numeric argument of an invocation (0 for `Createuser`). -/
def Call.amount : Call → ℚ
  | .createuser _ => 0
  | .initLedger _ _ initialSupply _ => initialSupply
  | .mintTokens _ amount => amount
  | .transferTokens _ _ amount => amount
  | .burnTokens _ amount => amount
  | .approveSpender _ _ amount => amount
  | .transferFrom _ _ _ amount => amount

/-! ## Vocabulary of the properties -/

/-- The balance of `user` as the properties count it: what `GetBalance`
returns, and 0 when the query reports an error (no record). -/
def balanceOf (ctx : Stub) (user : String) : ℚ :=
  match GetBalance ctx user with
  | .ok b => b
  | .error _ => 0

/-- The total supply recorded in the metadata at `tokenKey`, when the record
there decodes as a `Token`. -/
def totalSupplyOf (ctx : Stub) : Option ℚ :=
  (unmarshalToken (ctx.state tokenKey)).map Token.TotalSupply

/-- The record stored under `k`, if any, decodes to a non-negative balance. -/
def NonNegAt (s : Store) (k : String) : Prop :=
  ∀ d u, s k = some d → d.asUser = some u → 0 ≤ u.Balance

/-- Every account record of the store has a non-negative balance. -/
def NonNegBalances (s : Store) : Prop := ∀ k, NonNegAt s k

/-- The store with no key. -/
def emptyStore : Store := fun _ => none

/-- The identity arguments of an invocation: the keys under which it reads
or writes account records. -/
def Call.identities : Call → List String
  | .createuser name => [name]
  | .initLedger _ _ _ admin => [admin]
  | .mintTokens admin _ => [admin]
  | .transferTokens src dst _ => [src, dst]
  | .burnTokens user _ => [user]
  | .approveSpender owner spender _ => [owner, spender]
  | .transferFrom owner spender recipient _ => [owner, spender, recipient]

/-- Whether the invocation is an `InitLedger`. -/
def Call.isInit : Call → Bool
  | .initLedger _ _ _ _ => true
  | _ => false

/-- Whether the invocation is a `MintTokens`. -/
def Call.isMint : Call → Bool
  | .mintTokens _ _ => true
  | _ => false

/-- The keys whose `GetState` result the operation tests for an error before
going on (`err != nil` leads to a return): lines 32, 58, 96, 149 and 163, 203,
284, 315 and 326.  The reads of lines 121, 218 and 348 are not in the list:
their error is only used to choose the zero record. -/
def Call.checkedReads : Call → List String
  | .createuser name => [name]
  | .initLedger _ _ _ _ => [tokenKey]
  | .mintTokens _ _ => [tokenKey]
  | .transferTokens src _ _ => [src]
  | .burnTokens user _ => [user]
  | .approveSpender owner spender _ => [owner, spender]
  | .transferFrom owner spender _ _ => [owner, spender]

/-- The keys an invocation may write, in the order of its `PutState` calls. -/
def Call.writeKeys : Call → List String
  | .createuser name => [name]
  | .initLedger _ _ _ admin => [tokenKey, admin]
  | .mintTokens admin _ => [tokenKey, admin]
  | .transferTokens src dst _ => [src, dst]
  | .burnTokens user _ => [user]
  | .approveSpender owner spender _ => [owner, spender]
  | .transferFrom owner spender recipient _ => [owner, recipient, spender]

/-- The byte strings the operations write: encodings of a `User` or of a
`Token`. -/
def Marshalled (v : Bytes) : Prop := (∃ u, v = marshalUser u) ∨ (∃ t, v = marshalToken t)

/-- Stubs reachable from the empty store by ledger operations, over a stub
whose `PutState` never reports an error (reads may). -/
inductive Reachable : Stub → Prop where
  | init (getFails : String → Bool) : Reachable ⟨emptyStore, getFails, fun _ => false⟩
  | step {ctx : Stub} (c : Call) : Reachable ctx → Reachable (c.run ctx).2

/-! ## Concrete stores used at the evaluated inputs -/

/-- One account `x` with balance 10 and an empty allowance map. -/
def storeX : Store :=
  fun k => if k = "x" then some (marshalUser ⟨"x", 10, some emptyMap⟩) else none

/-- One account `a` with balance 0 and an empty allowance map. -/
def storeZero : Store :=
  fun k => if k = "a" then some (marshalUser ⟨"a", 0, some emptyMap⟩) else none

/-- Token metadata with admin `admin1` and total supply 100, and the admin's
account with balance 100. -/
def storeInit : Store :=
  fun k =>
    if k = "TOKEN" then some (marshalToken ⟨"TOK", "Tok", 100, "admin1"⟩)
    else if k = "admin1" then some (marshalUser ⟨"admin1", 100, some emptyMap⟩)
    else none

/-- Owner `o` with balance 10 and an allowance of 5 granted to `s`; spender
`s` with balance 1. -/
def storeApproved : Store :=
  fun k =>
    if k = "o" then some (marshalUser ⟨"o", 10, some (mapAdd emptyMap "s" 5)⟩)
    else if k = "s" then some (marshalUser ⟨"s", 1, some emptyMap⟩)
    else none

/-- One account `o` with balance 10; the identity `s` has no record. -/
def storeOwnerOnly : Store :=
  fun k => if k = "o" then some (marshalUser ⟨"o", 10, some emptyMap⟩) else none

/-- Two accounts: `a` with balance 10 and `b` with balance 7. -/
def storeAB : Store :=
  fun k =>
    if k = "a" then some (marshalUser ⟨"a", 10, some emptyMap⟩)
    else if k = "b" then some (marshalUser ⟨"b", 7, some emptyMap⟩)
    else none

/-- The stub over `storeAB` whose `GetState` reports an error for key `b`. -/
def stubReadFault : Stub := ⟨storeAB, fun k => decide (k = "b"), fun _ => false⟩

/-- The stub after `InitLedger("TOK", "Tok", 1000, "admin1")` on the empty
store. -/
def afterInit : Stub :=
  (Call.run (reliable emptyStore) (.initLedger "TOK" "Tok" 1000 "admin1")).2

/-- The stub after `InitLedger("TOK", "Tok", 1000, "admin1")` and
`TransferTokens("admin1", "u1", 300)` on the empty store. -/
def afterInitTransfer : Stub :=
  (Call.run afterInit (.transferTokens "admin1" "u1" 300)).2

/-! ## The model with `float64` arithmetic and encoding failures

The same operations once more, with amounts of type `F64` (Go's `float64`:
rounding to 53 binary digits, overflow to an infinity, NaN) and with every
`json.Marshal` error return of the source: `json.Marshal` fails on a NaN or an
infinite balance, total supply or allowance.  A Go map is an association list
here, so that the encoder can inspect every value. -/

namespace Fp

/-- Go type `float64` (IEEE 754 binary64), up to the sign of zero and the
payload of a NaN, which no operation of the program observes.  A finite value
is `n * 2^(-1074)` for the integer `n` held by `fin`: every finite `float64`
is such a multiple, the smallest positive one having `n = 1`. -/
inductive F64 where
  | fin (n : ℤ)
  | posInf
  | negInf
  | nan
  deriving DecidableEq, Repr

/-- Number of binary digits of `n`, by halving at most `fuel` times. -/
def bitLenAux : ℕ → ℕ → ℕ
  | 0, _ => 0
  | fuel + 1, n => if n = 0 then 0 else bitLenAux fuel (n / 2) + 1

/-- Number of binary digits of `n` (0 for 0). -/
def bitLen (n : ℕ) : ℕ := bitLenAux n n

/-- Rounding of `n` to a multiple of `P`, to nearest, ties to the even
quotient. -/
def roundAt (P n : ℕ) : ℕ :=
  if 2 * (n % P) < P ∨ (2 * (n % P) = P ∧ n / P % 2 = 0) then n / P * P else (n / P + 1) * P

/-- Rounding of a magnitude to 53 significant binary digits, to nearest, ties
to the even significand (the rounding of every `float64` operation): a
magnitude of `bitLen n` digits is rounded to a multiple of
`2 ^ (bitLen n - 53)`. -/
def roundNat (n : ℕ) : ℕ := roundAt (2 ^ (bitLen n - 53)) n

/-- The `float64` nearest to the real number `z * 2^(-1074)`: an infinity when
the rounded magnitude reaches `2^1024`, which is `2^2098` units. -/
def F64.round (z : ℤ) : F64 :=
  if 2 ^ 2098 ≤ roundNat z.natAbs then (if z < 0 then .negInf else .posInf)
  else .fin (if z < 0 then -(roundNat z.natAbs : ℤ) else (roundNat z.natAbs : ℤ))

/-- The zero value of `float64`. -/
def F64.zero : F64 := .fin 0

/-- Go expression `-x`. -/
def F64.neg : F64 → F64
  | .fin a => .fin (-a)
  | .posInf => .negInf
  | .negInf => .posInf
  | .nan => .nan

/-- Go expression `x + y` on `float64`. -/
def F64.add : F64 → F64 → F64
  | .nan, _ => .nan
  | _, .nan => .nan
  | .posInf, .negInf => .nan
  | .negInf, .posInf => .nan
  | .posInf, _ => .posInf
  | _, .posInf => .posInf
  | .negInf, _ => .negInf
  | _, .negInf => .negInf
  | .fin a, .fin b => F64.round (a + b)

/-- Go expression `x - y` on `float64`. -/
def F64.sub (x y : F64) : F64 := F64.add x (F64.neg y)

/-- Go expression `x < y` on `float64`: false when an operand is a NaN. -/
def F64.lt : F64 → F64 → Bool
  | .nan, _ => false
  | _, .nan => false
  | _, .negInf => false
  | .posInf, _ => false
  | .negInf, _ => true
  | _, .posInf => true
  | .fin a, .fin b => decide (a < b)

/-- Go expression `x <= y` on `float64`: false when an operand is a NaN. -/
def F64.le : F64 → F64 → Bool
  | .nan, _ => false
  | _, .nan => false
  | .negInf, _ => true
  | _, .posInf => true
  | _, .negInf => false
  | .posInf, _ => false
  | .fin a, .fin b => decide (a ≤ b)

/-- Whether `json.Marshal` accepts the number: it rejects NaN and the two
infinities. -/
def F64.isFinite : F64 → Bool
  | .fin _ => true
  | _ => false

/-- Whether the value is what a JSON number decodes to, a finite `float64`:
a value with at most 53 significant binary digits and of magnitude below
`2^1024`, so that rounding returns it. -/
def F64.isJsonNumber : F64 → Bool
  | .fin n => decide (F64.round n = .fin n)
  | _ => false

/-- The `float64` written as the decimal integer literal `k`. -/
def F64.ofNat (k : ℕ) : F64 := F64.round ((k : ℤ) * 2 ^ 1074)

/-- Go type `map[string]float64`, when not nil. -/
abbrev AllowanceMap := List (String × F64)

/-- Go struct `Token` (lines 15-20). -/
structure Token where
  Symbol : String
  Name : String
  TotalSupply : F64
  Admin : String

/-- Go struct `User` (lines 22-26); `Allowances = none` is the nil map. -/
structure User where
  Name : String
  Balance : F64
  Allowances : Option AllowanceMap

/-- The entry of a non-nil map under key `k`, if there is one. -/
def mapGet (m : AllowanceMap) (k : String) : Option F64 :=
  match m with
  | [] => none
  | (j, v) :: rest => if j = k then some v else mapGet rest k

/-- Go expression `m[k]` in its two-result form on a possibly nil map. -/
def mapLookup (m : Option AllowanceMap) (k : String) : F64 × Bool :=
  match m with
  | none => (F64.zero, false)
  | some l =>
    match mapGet l k with
    | none => (F64.zero, false)
    | some v => (v, true)

/-- Go statement `m[k] = v` on a non-nil map. -/
def mapSet (m : AllowanceMap) (k : String) (v : F64) : AllowanceMap :=
  match m with
  | [] => [(k, v)]
  | (j, w) :: rest => if j = k then (k, v) :: rest else (j, w) :: mapSet rest k v

/-- Go statement `m[k] += d` on a non-nil map (a missing entry reads as the
zero value). -/
def mapAdd (m : AllowanceMap) (k : String) (d : F64) : AllowanceMap :=
  mapSet m k (F64.add ((mapGet m k).getD F64.zero) d)

/-- Go statement `m[k] -= d` on a non-nil map. -/
def mapSub (m : AllowanceMap) (k : String) (d : F64) : AllowanceMap :=
  mapSet m k (F64.sub ((mapGet m k).getD F64.zero) d)

/-- A non-nil byte string, represented by its decoding into each of the two
struct types (`none`: `json.Unmarshal` returns an error). -/
structure Bytes where
  asUser : Option User
  asToken : Option Token

/-- Whether `json.Marshal` accepts the allowance map: every value is finite. -/
def mapFinite (m : Option AllowanceMap) : Bool :=
  match m with
  | none => true
  | some l => l.all (fun kv => F64.isFinite kv.2)

/-- Encoding `json.Marshal(user)`: an error (`none`) when the balance or an
allowance is not finite; otherwise the bytes decode back to `user`, and as a
`Token` with only the name filled in. -/
def marshalUser (u : User) : Option Bytes :=
  if F64.isFinite u.Balance && mapFinite u.Allowances then
    some ⟨some u, some ⟨"", u.Name, F64.zero, ""⟩⟩
  else none

/-- Encoding `json.Marshal(token)`: an error (`none`) when the total supply is
not finite; otherwise the bytes decode back to `token`, and as a `User` with
only the name filled in. -/
def marshalToken (t : Token) : Option Bytes :=
  if F64.isFinite t.TotalSupply then some ⟨some ⟨t.Name, F64.zero, none⟩, some t⟩ else none

/-- Decoding `json.Unmarshal(data, &user)` into a zero `User`; nil data is a
syntax error. -/
def unmarshalUser (data : Option Bytes) : Option User :=
  match data with
  | none => none
  | some b => b.asUser

/-- Decoding `json.Unmarshal(data, &token)` into a zero `Token`. -/
def unmarshalToken (data : Option Bytes) : Option Token :=
  match data with
  | none => none
  | some b => b.asToken

/-- World state: key to stored bytes, `none` when the key is absent. -/
abbrev Store := String → Option Bytes

/-- The chaincode stub: the world state and the keys on which the two stub
calls report an error. -/
structure Stub where
  state : Store
  getFails : String → Bool
  putFails : String → Bool

/-- Store update by one successful write. -/
def Store.put (s : Store) (key : String) (value : Bytes) : Store :=
  fun k => if k = key then some value else s k

/-- Stub call `GetState(key)`: `none` is a reported error, `some none` a
missing key. -/
def Stub.GetState (ctx : Stub) (key : String) : Option (Option Bytes) :=
  if ctx.getFails key then none else some (ctx.state key)

/-- Stub call `PutState(key, value)`: `none` is a reported error. -/
def Stub.PutState (ctx : Stub) (key : String) (value : Bytes) : Option Stub :=
  if ctx.putFails key then none
  else some ⟨ctx.state.put key value, ctx.getFails, ctx.putFails⟩

/-- A stub over store `s` whose calls never report an error. -/
def reliable (s : Store) : Stub := ⟨s, fun _ => false, fun _ => false⟩

/-- Operation `Createuser` (lines 30-54). -/
def Createuser (ctx : Stub) (name : String) : Outcome × Stub :=
  match ctx.GetState name with
  | none => (.error .readWorldState, ctx)
  | some (some _) => (.error .userAlreadyExists, ctx)
  | some none =>
    let user : User := ⟨name, F64.zero, some []⟩
    match marshalUser user with
    | none => (.error .marshalToken, ctx)
    | some tokenJSON =>
      match ctx.PutState name tokenJSON with
      | none => (.error .storeToken, ctx)
      | some ctx1 => (.ok, ctx1)

/-- Operation `InitLedger` (lines 56-92). -/
def InitLedger (ctx : Stub) (symbol name : String)
    (initialSupply : F64) (admin : String) : Outcome × Stub :=
  match ctx.GetState tokenKey with
  | none => (.error .readWorldState, ctx)
  | some (some _) => (.error .tokenAlreadyInitialized, ctx)
  | some none =>
    let token : Token := ⟨symbol, name, initialSupply, admin⟩
    match marshalToken token with
    | none => (.error .marshalToken, ctx)
    | some tokenJSON =>
      match ctx.PutState tokenKey tokenJSON with
      | none => (.error .storeToken, ctx)
      | some ctx1 =>
        let adminBalance : User := ⟨admin, initialSupply, some []⟩
        match marshalUser adminBalance with
        | none => (.error .marshalAdminBalance, ctx1)
        | some adminBalanceJSON =>
          match ctx1.PutState admin adminBalanceJSON with
          | none => (.error .storeAdminBalance, ctx1)
          | some ctx2 => (.ok, ctx2)

/-- The admin account `MintTokens` works on (lines 121-130): the stored record
when the read succeeds and finds one, a fresh record otherwise; `none` when
the stored record does not decode. -/
def mintAdminAccount (adminRead : Option (Option Bytes)) :
    Option User :=
  match adminRead with
  | some (some adminData) => unmarshalUser (some adminData)
  | _ => some ⟨"", F64.zero, some []⟩

/-- Operation `MintTokens` (lines 94-145). -/
def MintTokens (ctx : Stub) (admin : String) (amount : F64) :
    Outcome × Stub :=
  match ctx.GetState tokenKey with
  | none => (.error .tokenNotFound, ctx)
  | some none => (.error .tokenNotFound, ctx)
  | some (some tokenData) =>
    match unmarshalToken (some tokenData) with
    | none => (.error .unmarshalTokenData, ctx)
    | some token =>
      if token.Admin ≠ admin then (.error .onlyAdminCanMint, ctx)
      else
        let token1 : Token :=
          ⟨token.Symbol, token.Name, F64.add token.TotalSupply amount, token.Admin⟩
        match marshalToken token1 with
        | none => (.error .marshalTokenData, ctx)
        | some tokenData1 =>
          match ctx.PutState tokenKey tokenData1 with
          | none => (.error .updateTokenSupply, ctx)
          | some ctx1 =>
            match mintAdminAccount (ctx1.GetState admin) with
            | none => (.error .unmarshalAdminAccount, ctx1)
            | some adminAccount =>
              let adminAccount1 : User :=
                ⟨adminAccount.Name, F64.add adminAccount.Balance amount, adminAccount.Allowances⟩
              match marshalUser adminAccount1 with
              | none => (.error .marshalAdminAccount, ctx1)
              | some adminData1 =>
                match ctx1.PutState admin adminData1 with
                | none => (.error .updateAdminBalance, ctx1)
                | some ctx2 => (.ok, ctx2)

/-- Operation `ApproveSpender` (lines 147-199).  The second read tests
`ownerData == nil` again (line 163), which is false there, so only a reported
read error stops at that test; a missing spender reaches `json.Unmarshal`
with nil data. -/
def ApproveSpender (ctx : Stub) (owner spender : String)
    (amount : F64) : Outcome × Stub :=
  match ctx.GetState owner with
  | none => (.error .ownerNotFound, ctx)
  | some none => (.error .ownerNotFound, ctx)
  | some (some ownerData) =>
    match unmarshalUser (some ownerData) with
    | none => (.error .unmarshalOwnerData, ctx)
    | some ownerAccount =>
      if F64.lt ownerAccount.Balance amount then (.error .insufficientBalanceWithOwner, ctx)
      else
        match ctx.GetState spender with
        | none => (.error .ownerNotFound, ctx)
        | some spenderData =>
          match unmarshalUser spenderData with
          | none => (.error .unmarshalOwnerData, ctx)
          | some spenderInfo =>
            if F64.lt ownerAccount.Balance amount then (.error .insufficientBalanceWithOwner, ctx)
            else
              match ownerAccount.Allowances with
              | none => (.panic, ctx)
              | some allowances =>
                let ownerAccount1 : User :=
                  ⟨ownerAccount.Name, ownerAccount.Balance,
                    some (mapAdd allowances spender amount)⟩
                let spenderInfo1 : User :=
                  ⟨spenderInfo.Name, F64.add spenderInfo.Balance amount, spenderInfo.Allowances⟩
                match marshalUser ownerAccount1 with
                | none => (.error .marshalOwnerData, ctx)
                | some ownerData1 =>
                  match ctx.PutState owner ownerData1 with
                  | none => (.error .updateOwnerAllowances, ctx)
                  | some ctx1 =>
                    match marshalUser spenderInfo1 with
                    | none => (.error .marshalOwnerData, ctx1)
                    | some spenderInfoBytes =>
                      match ctx1.PutState spender spenderInfoBytes with
                      | none => (.error .updateOwnerAllowances, ctx1)
                      | some ctx2 => (.ok, ctx2)

/-- The receiving account of a transfer (lines 217-224 and 348-355): the
stored record when the read succeeds and finds one, the zero `User`
otherwise; `none` when the stored record does not decode. -/
def receiverAccount (toRead : Option (Option Bytes)) :
    Option User :=
  match toRead with
  | some (some toData) => unmarshalUser (some toData)
  | _ => some ⟨"", F64.zero, none⟩

/-- Operation `TransferTokens` (lines 201-250). -/
def TransferTokens (ctx : Stub) (src dst : String) (amount : F64) :
    Outcome × Stub :=
  match ctx.GetState src with
  | none => (.error .senderNotFound, ctx)
  | some none => (.error .senderNotFound, ctx)
  | some (some fromData) =>
    match unmarshalUser (some fromData) with
    | none => (.error .unmarshalSenderData, ctx)
    | some sender =>
      if F64.lt sender.Balance amount then (.error .insufficientBalance, ctx)
      else
        match receiverAccount (ctx.GetState dst) with
        | none => (.error .unmarshalReceiverData, ctx)
        | some receiver =>
          let sender1 : User := ⟨sender.Name, F64.sub sender.Balance amount, sender.Allowances⟩
          let receiver1 : User :=
            ⟨receiver.Name, F64.add receiver.Balance amount, receiver.Allowances⟩
          match marshalUser sender1 with
          | none => (.error .marshalSenderData, ctx)
          | some fromData1 =>
            match marshalUser receiver1 with
            | none => (.error .marshalReceiverData, ctx)
            | some toData1 =>
              match ctx.PutState src fromData1 with
              | none => (.error .updateSenderBalance, ctx)
              | some ctx1 =>
                match ctx1.PutState dst toData1 with
                | none => (.error .updateReceiverBalance, ctx1)
                | some ctx2 => (.ok, ctx2)

/-- Query `GetUser` (lines 267-280). -/
def GetUser (ctx : Stub) (user : String) : Except Err User :=
  match ctx.GetState user with
  | none => .error .userNotFound
  | some none => .error .userNotFound
  | some (some userData) =>
    match unmarshalUser (some userData) with
    | none => .error .unmarshalUserData
    | some userAccount => .ok userAccount

/-- Query `GetBalance` (lines 252-265). -/
def GetBalance (ctx : Stub) (user : String) : Except Err F64 :=
  match ctx.GetState user with
  | none => .error .userNotFound
  | some none => .error .userNotFound
  | some (some userData) =>
    match unmarshalUser (some userData) with
    | none => .error .unmarshalUserData
    | some userAccount => .ok userAccount.Balance

/-- Operation `BurnTokens` (lines 282-311). -/
def BurnTokens (ctx : Stub) (user : String) (amount : F64) :
    Outcome × Stub :=
  match ctx.GetState user with
  | none => (.error .userNotFound, ctx)
  | some none => (.error .userNotFound, ctx)
  | some (some userData) =>
    match unmarshalUser (some userData) with
    | none => (.error .unmarshalUserData, ctx)
    | some userAccount =>
      if F64.lt userAccount.Balance amount then (.error .insufficientBalanceToBurn, ctx)
      else
        let userAccount1 : User :=
          ⟨userAccount.Name, F64.sub userAccount.Balance amount, userAccount.Allowances⟩
        match marshalUser userAccount1 with
        | none => (.error .marshalUserData, ctx)
        | some userData1 =>
          match ctx.PutState user userData1 with
          | none => (.error .updateUserBalance, ctx)
          | some ctx1 => (.ok, ctx1)

/-- Operation `TransferFromApprovedSpenders` (lines 313-386).  As in
`ApproveSpender` the second read tests `ownerData == nil` (line 326).  The
allowance map is not nil once the entry test of line 337 has passed. -/
def TransferFromApprovedSpenders (ctx : Stub)
    (owner spender recipient : String) (amount : F64) : Outcome × Stub :=
  match ctx.GetState owner with
  | none => (.error .ownerNotFound, ctx)
  | some none => (.error .ownerNotFound, ctx)
  | some (some ownerData) =>
    match unmarshalUser (some ownerData) with
    | none => (.error .unmarshalOwnerData, ctx)
    | some ownerAccount =>
      match ctx.GetState spender with
      | none => (.error .ownerNotFound, ctx)
      | some spenderData =>
        match unmarshalUser spenderData with
        | none => (.error .unmarshalOwnerData, ctx)
        | some spenderUser =>
          let allowance := (mapLookup ownerAccount.Allowances spender).1
          let ok := (mapLookup ownerAccount.Allowances spender).2
          if !ok || F64.lt allowance amount then (.error .spenderAllowanceExceeded, ctx)
          else if F64.lt ownerAccount.Balance amount then (.error .insufficientBalance, ctx)
          else
            match ownerAccount.Allowances with
            | none => (.panic, ctx)
            | some allowances =>
              let allowances1 := mapAdd (mapSub allowances spender amount) recipient amount
              match receiverAccount (ctx.GetState recipient) with
              | none => (.error .unmarshalRecipientData, ctx)
              | some recipientAccount =>
                let ownerAccount1 : User :=
                  ⟨ownerAccount.Name, ownerAccount.Balance, some allowances1⟩
                let spenderUser1 : User :=
                  ⟨spenderUser.Name, F64.sub spenderUser.Balance amount, spenderUser.Allowances⟩
                let recipientAccount1 : User :=
                  ⟨recipientAccount.Name, F64.add recipientAccount.Balance amount,
                    recipientAccount.Allowances⟩
                match marshalUser ownerAccount1 with
                | none => (.error .marshalOwnerData, ctx)
                | some ownerData1 =>
                  match marshalUser recipientAccount1 with
                  | none => (.error .marshalRecipientData, ctx)
                  | some recipientData1 =>
                    match marshalUser spenderUser1 with
                    | none => (.error .marshalRecipientData, ctx)
                    | some spenderData1 =>
                      match ctx.PutState owner ownerData1 with
                      | none => (.error .updateOwnerBalance, ctx)
                      | some ctx1 =>
                        match ctx1.PutState recipient recipientData1 with
                        | none => (.error .updateRecipientBalance, ctx1)
                        | some ctx2 =>
                          match ctx2.PutState spender spenderData1 with
                          | none => (.error .updateSpenderBalance, ctx2)
                          | some ctx3 => (.ok, ctx3)

/-- One invocation of a mutating operation with its arguments. -/
inductive Call where
  | createuser (name : String)
  | initLedger (symbol name : String) (initialSupply : F64) (admin : String)
  | mintTokens (admin : String) (amount : F64)
  | transferTokens (src dst : String) (amount : F64)
  | burnTokens (user : String) (amount : F64)
  | approveSpender (owner spender : String) (amount : F64)
  | transferFrom (owner spender recipient : String) (amount : F64)

/-- Dispatch of an invocation to its operation. -/
def Call.run (ctx : Stub) : Call → Outcome × Stub
  | .createuser name => Createuser ctx name
  | .initLedger symbol name initialSupply admin =>
    InitLedger ctx symbol name initialSupply admin
  | .mintTokens admin amount => MintTokens ctx admin amount
  | .transferTokens src dst amount => TransferTokens ctx src dst amount
  | .burnTokens user amount => BurnTokens ctx user amount
  | .approveSpender owner spender amount => ApproveSpender ctx owner spender amount
  | .transferFrom owner spender recipient amount =>
    TransferFromApprovedSpenders ctx owner spender recipient amount

/-- The numeric argument of an invocation (0 for `Createuser`). -/
def Call.amount : Call → F64
  | .createuser _ => F64.zero
  | .initLedger _ _ initialSupply _ => initialSupply
  | .mintTokens _ amount => amount
  | .transferTokens _ _ amount => amount
  | .burnTokens _ amount => amount
  | .approveSpender _ _ amount => amount
  | .transferFrom _ _ _ amount => amount

/-- The identity arguments of an invocation: the keys under which it reads
or writes account records. -/
def Call.identities : Call → List String
  | .createuser name => [name]
  | .initLedger _ _ _ admin => [admin]
  | .mintTokens admin _ => [admin]
  | .transferTokens src dst _ => [src, dst]
  | .burnTokens user _ => [user]
  | .approveSpender owner spender _ => [owner, spender]
  | .transferFrom owner spender recipient _ => [owner, spender, recipient]

/-- Whether the invocation is a `Createuser`. -/
def Call.isCreate : Call → Bool
  | .createuser _ => true
  | _ => false

/-- Whether the invocation is an `InitLedger`. -/
def Call.isInit : Call → Bool
  | .initLedger _ _ _ _ => true
  | _ => false

/-- Whether the invocation is a `MintTokens`. -/
def Call.isMint : Call → Bool
  | .mintTokens _ _ => true
  | _ => false

/-- The keys an invocation may write, in the order of its `PutState` calls. -/
def Call.writeKeys : Call → List String
  | .createuser name => [name]
  | .initLedger _ _ _ admin => [tokenKey, admin]
  | .mintTokens admin _ => [tokenKey, admin]
  | .transferTokens src dst _ => [src, dst]
  | .burnTokens user _ => [user]
  | .approveSpender owner spender _ => [owner, spender]
  | .transferFrom owner spender recipient _ => [owner, recipient, spender]

/-- The balance of `user` as the properties count it: what `GetBalance`
returns, and 0 when the query reports an error (no record). -/
def balanceOf (ctx : Stub) (user : String) : F64 :=
  match GetBalance ctx user with
  | .ok b => b
  | .error _ => F64.zero

/-- The entry `allowances[k]` of the record stored for `owner`, in the
two-result form of a Go map read; `(0, false)` when `GetUser` reports an
error. -/
def allowanceOf (ctx : Stub) (owner k : String) : F64 × Bool :=
  match GetUser ctx owner with
  | .ok u => mapLookup u.Allowances k
  | .error _ => (F64.zero, false)

/-- The total supply recorded in the metadata at `tokenKey`, when the record
there decodes as a `Token`. -/
def totalSupplyOf (ctx : Stub) : Option F64 :=
  (unmarshalToken (ctx.state tokenKey)).map Token.TotalSupply

/-- The store with no key. -/
def emptyStore : Store := fun _ => none

/-- The byte strings the operations write: encodings of a `User` or of a
`Token`. -/
def Marshalled (v : Bytes) : Prop :=
  (∃ u, marshalUser u = some v) ∨ (∃ t, marshalToken t = some v)

/-- Stubs reachable from the empty store by ledger operations, over a stub
whose `PutState` never reports an error (reads may). -/
inductive Reachable : Stub → Prop where
  | init (getFails : String → Bool) : Reachable ⟨emptyStore, getFails, fun _ => false⟩
  | step {ctx : Stub} (c : Call) : Reachable ctx → Reachable (c.run ctx).2

/-- Every record of the store decodes as a `User`. -/
def AllDecode (s : Store) : Prop := ∀ k d, s k = some d → ∃ u, d.asUser = some u

/-! ### Concrete stores used at the evaluated inputs -/

/-- One account `x` with balance 10 and an empty allowance map. -/
def storeX : Store :=
  fun k => if k = "x" then marshalUser ⟨"x", F64.ofNat 10, some []⟩ else none

/-- One account `x` with balance `1e308` and an empty allowance map. -/
def storeHugeX : Store :=
  fun k => if k = "x" then marshalUser ⟨"x", F64.ofNat (10 ^ 308), some []⟩ else none

/-- One account `x` with balance `1e16` and an empty allowance map. -/
def storeBigX : Store :=
  fun k => if k = "x" then marshalUser ⟨"x", F64.ofNat (10 ^ 16), some []⟩ else none

/-- Token metadata with admin `admin1` and total supply 100, and the admin's
account with balance 100. -/
def storeInit : Store :=
  fun k =>
    if k = "TOKEN" then marshalToken ⟨"TOK", "Tok", F64.ofNat 100, "admin1"⟩
    else if k = "admin1" then marshalUser ⟨"admin1", F64.ofNat 100, some []⟩
    else none

/-- Token metadata with admin `admin1` and total supply `1e16`, and the
admin's account with balance `1e16`. -/
def storeBigInit : Store :=
  fun k =>
    if k = "TOKEN" then marshalToken ⟨"TOK", "Tok", F64.ofNat (10 ^ 16), "admin1"⟩
    else if k = "admin1" then marshalUser ⟨"admin1", F64.ofNat (10 ^ 16), some []⟩
    else none

/-- Token metadata with admin `admin1` and total supply `1e308`, and the
admin's account with balance `1e308`. -/
def storeHugeInit : Store :=
  fun k =>
    if k = "TOKEN" then marshalToken ⟨"TOK", "Tok", F64.ofNat (10 ^ 308), "admin1"⟩
    else if k = "admin1" then marshalUser ⟨"admin1", F64.ofNat (10 ^ 308), some []⟩
    else none

/-- Token metadata whose recorded admin is the identity `TOKEN` itself. -/
def storeAdminIsKey : Store :=
  fun k => if k = "TOKEN" then marshalToken ⟨"TOK", "Tok", F64.ofNat 100, "TOKEN"⟩ else none

/-- Token metadata with admin `admin1` and total supply 100; the key `admin1`
holds bytes that are not JSON. -/
def storeBadAdmin : Store :=
  fun k =>
    if k = "TOKEN" then marshalToken ⟨"TOK", "Tok", F64.ofNat 100, "admin1"⟩
    else if k = "admin1" then some ⟨none, none⟩
    else none

/-- Two accounts: `o` with balance 10 and `s` with balance 1, both with an
empty allowance map. -/
def storeOS : Store :=
  fun k =>
    if k = "o" then marshalUser ⟨"o", F64.ofNat 10, some []⟩
    else if k = "s" then marshalUser ⟨"s", F64.ofNat 1, some []⟩
    else none

/-- Owner `o` with balance 10 and an allowance of `1e16` granted to `s`;
spender `s` with balance `1e16`. -/
def storeBigOS : Store :=
  fun k =>
    if k = "o" then marshalUser ⟨"o", F64.ofNat 10, some [("s", F64.ofNat (10 ^ 16))]⟩
    else if k = "s" then marshalUser ⟨"s", F64.ofNat (10 ^ 16), some []⟩
    else none

/-- Owner `o` with balance 10 and an allowance of 5 granted to `s`; spender
`s` with balance 1. -/
def storeApproved : Store :=
  fun k =>
    if k = "o" then marshalUser ⟨"o", F64.ofNat 10, some [("s", F64.ofNat 5)]⟩
    else if k = "s" then marshalUser ⟨"s", F64.ofNat 1, some []⟩
    else none

/-- Owner `o` with balance 10, an allowance of 5 granted to `s` and one of
`1e16` granted to `r`; spender `s` with balance 1. -/
def storeBigApproved : Store :=
  fun k =>
    if k = "o" then
      marshalUser ⟨"o", F64.ofNat 10, some [("s", F64.ofNat 5), ("r", F64.ofNat (10 ^ 16))]⟩
    else if k = "s" then marshalUser ⟨"s", F64.ofNat 1, some []⟩
    else none

/-- Owner `o` with balance 10 and an allowance of 5 granted to itself. -/
def storeSelfApproved : Store :=
  fun k => if k = "o" then marshalUser ⟨"o", F64.ofNat 10, some [("o", F64.ofNat 5)]⟩ else none

/-- The stub after `InitLedger("TOK", "Tok", 1000, "admin1")` on the empty
store. -/
def afterInit : Stub :=
  (Call.run (reliable emptyStore) (.initLedger "TOK" "Tok" (F64.ofNat 1000) "admin1")).2

/-- The stub after `InitLedger("TOK", "Tok", 1e308, "admin1")` and
`TransferTokens("admin1", "admin1", 7e307)` on the empty store: the supply is
`1e308`, the admin's balance `1.7e308`. -/
def afterInflation : Stub :=
  (Call.run
    (Call.run (reliable emptyStore)
      (.initLedger "TOK" "Tok" (F64.ofNat (10 ^ 308)) "admin1")).2
    (.transferTokens "admin1" "admin1" (F64.ofNat (7 * 10 ^ 307)))).2

/-! ### Decidable equality, for the evaluation of concrete inputs -/

deriving instance DecidableEq for Except
deriving instance DecidableEq for Token
deriving instance DecidableEq for User
deriving instance DecidableEq for Bytes

end Fp

/-! # Claims on the exact model -/

/-! ## Stub and store lemmas -/

theorem Store.put_apply (s : Store) (k : String) (v : Bytes) (j : String) :
    s.put k v j = if j = k then some v else s j := rfl

theorem PutState_state {ctx ctx1 : Stub} {k : String} {v : Bytes}
    (h : ctx.PutState k v = some ctx1) :
    ctx1.state = ctx.state.put k v ∧ ctx1.getFails = ctx.getFails ∧
      ctx1.putFails = ctx.putFails := by
  unfold Stub.PutState at h
  split at h
  · cases h
  · cases h; exact ⟨rfl, rfl, rfl⟩

theorem GetState_some {ctx : Stub} {k : String} {r : Option Bytes}
    (h : ctx.GetState k = some r) : ctx.state k = r := by
  unfold Stub.GetState at h
  split at h
  · cases h
  · cases h; rfl

@[simp] theorem reliable_state (s : Store) : (reliable s).state = s := rfl

@[simp] theorem GetState_reliable (s : Store) (k : String) :
    (reliable s).GetState k = some (s k) := rfl

@[simp] theorem PutState_reliable (s : Store) (k : String) (v : Bytes) :
    (reliable s).PutState k v = some (reliable (s.put k v)) := rfl

theorem GetBalance_stub_ok {ctx : Stub} {k : String} {b : ℚ}
    (h : GetBalance ctx k = .ok b) :
    ∃ d u, ctx.state k = some d ∧ d.asUser = some u ∧ u.Balance = b := by
  unfold GetBalance at h
  split at h
  · cases h
  · cases h
  · next d hg =>
    split at h
    · cases h
    · next u hu =>
      cases h
      exact ⟨d, u, GetState_some hg, hu, rfl⟩

theorem GetBalance_reliable_ok {s : Store} {k : String} {b : ℚ}
    (h : GetBalance (reliable s) k = .ok b) :
    ∃ d u, s k = some d ∧ d.asUser = some u ∧ u.Balance = b :=
  GetBalance_stub_ok h

theorem GetBalance_reliable_of {s : Store} {k : String} {d : Bytes} {u : User}
    (hk : s k = some d) (hu : d.asUser = some u) :
    GetBalance (reliable s) k = .ok u.Balance := by
  simp [GetBalance, hk, unmarshalUser, hu]

theorem NonNegAt_put {s : Store} {j k : String} {u : User}
    (hs : NonNegAt s k) (hu : k = j → 0 ≤ u.Balance) :
    NonNegAt (s.put j (marshalUser u)) k := by
  intro d w hd hw
  rw [Store.put_apply] at hd
  split at hd
  · cases hd
    simp [marshalUser] at hw
    subst hw
    exact hu (by assumption)
  · exact hs d w hd hw

theorem NonNegAt_putToken {s : Store} {j k : String} {t : Token}
    (hs : NonNegAt s k) :
    NonNegAt (s.put j (marshalToken t)) k := by
  intro d w hd hw
  rw [Store.put_apply] at hd
  split at hd
  · cases hd
    simp [marshalToken] at hw
    subst hw
    exact le_refl _
  · exact hs d w hd hw

theorem NonNegAt_PutState {ctx ctx1 : Stub} {j k : String} {u : User}
    (h : ctx.PutState j (marshalUser u) = some ctx1)
    (hs : NonNegAt ctx.state k) (hu : k = j → 0 ≤ u.Balance) :
    NonNegAt ctx1.state k := by
  rw [(PutState_state h).1]; exact NonNegAt_put hs hu

theorem NonNegAt_PutState_token {ctx ctx1 : Stub} {j k : String} {t : Token}
    (h : ctx.PutState j (marshalToken t) = some ctx1)
    (hs : NonNegAt ctx.state k) :
    NonNegAt ctx1.state k := by
  rw [(PutState_state h).1]; exact NonNegAt_putToken hs

theorem decoded_nonneg {ctx : Stub} {k : String} {d : Bytes} {u : User}
    (hinv : NonNegBalances ctx.state) (hg : ctx.GetState k = some (some d))
    (hu : unmarshalUser (some d) = some u) : 0 ≤ u.Balance :=
  hinv k d u (GetState_some hg) hu

theorem Createuser_nonneg {ctx : Stub} (hinv : NonNegBalances ctx.state) (name k : String) :
    NonNegAt (Createuser ctx name).2.state k := by
  unfold Createuser
  split
  · exact hinv k
  · exact hinv k
  · dsimp only
    split
    · exact hinv k
    · next h => exact NonNegAt_PutState h (hinv k) (fun _ => le_refl _)

theorem InitLedger_nonneg {ctx : Stub} (hinv : NonNegBalances ctx.state)
    (symbol name : String) (initialSupply : ℚ) (admin : String) (h0 : 0 ≤ initialSupply)
    (k : String) :
    NonNegAt (InitLedger ctx symbol name initialSupply admin).2.state k := by
  unfold InitLedger
  split
  · exact hinv k
  · exact hinv k
  · dsimp only
    split
    · exact hinv k
    · next h1 =>
      have hk1 : NonNegAt _ k := NonNegAt_PutState_token h1 (hinv k)
      split
      · exact hk1
      · next h2 => exact NonNegAt_PutState h2 hk1 (fun _ => h0)

theorem receiver_nonneg {ctx : Stub} {k : String} {u : User}
    (hinv : NonNegBalances ctx.state)
    (hu : receiverAccount (ctx.GetState k) = some u) : 0 ≤ u.Balance := by
  unfold receiverAccount at hu
  split at hu
  · next d hg => exact decoded_nonneg hinv hg hu
  · cases hu; exact le_refl _

theorem TransferTokens_nonneg {ctx : Stub} (hinv : NonNegBalances ctx.state)
    (src dst : String) (amount : ℚ) (h0 : 0 ≤ amount) (k : String) :
    NonNegAt (TransferTokens ctx src dst amount).2.state k := by
  unfold TransferTokens
  split
  · exact hinv k
  · exact hinv k
  · next d hg =>
    split
    · exact hinv k
    · next sender hs =>
      split
      · exact hinv k
      · next hlt =>
        split
        · exact hinv k
        · next receiver hr =>
          have hrn := receiver_nonneg hinv hr
          dsimp only
          split
          · exact hinv k
          · next ctx1 h1 =>
            have hk1 : NonNegAt ctx1.state k :=
              NonNegAt_PutState h1 (hinv k) (fun _ => by simpa using not_lt.mp hlt)
            split
            · exact hk1
            · next h2 => exact NonNegAt_PutState h2 hk1 (fun _ => by simpa using add_nonneg hrn h0)

theorem mintAdmin_nonneg {ctx : Stub} {k : String} {u : User}
    (hinv : NonNegBalances ctx.state)
    (hu : mintAdminAccount (ctx.GetState k) = some u) : 0 ≤ u.Balance := by
  unfold mintAdminAccount at hu
  split at hu
  · next d hg => exact decoded_nonneg hinv hg hu
  · cases hu; exact le_refl _

theorem MintTokens_nonneg {ctx : Stub} (hinv : NonNegBalances ctx.state)
    (admin : String) (amount : ℚ) (h0 : 0 ≤ amount) (k : String) :
    NonNegAt (MintTokens ctx admin amount).2.state k := by
  unfold MintTokens
  split
  · exact hinv k
  · exact hinv k
  · split
    · exact hinv k
    · next token ht =>
      split
      · exact hinv k
      · dsimp only
        split
        · exact hinv k
        · next ctx1 h1 =>
          have hinv1 : NonNegBalances ctx1.state :=
            fun j => NonNegAt_PutState_token h1 (hinv j)
          split
          · exact hinv1 k
          · next adminAccount ha =>
            have han := mintAdmin_nonneg hinv1 ha
            split
            · exact hinv1 k
            · next h2 =>
              exact NonNegAt_PutState h2 (hinv1 k) (fun _ => by simpa using add_nonneg han h0)

theorem BurnTokens_nonneg {ctx : Stub} (hinv : NonNegBalances ctx.state)
    (user : String) (amount : ℚ) (k : String) :
    NonNegAt (BurnTokens ctx user amount).2.state k := by
  unfold BurnTokens
  split
  · exact hinv k
  · exact hinv k
  · split
    · exact hinv k
    · next userAccount hu =>
      split
      · exact hinv k
      · next hlt =>
        dsimp only
        split
        · exact hinv k
        · next h1 =>
          exact NonNegAt_PutState h1 (hinv k) (fun _ => by simpa using not_lt.mp hlt)

theorem read_nonneg {ctx : Stub} {k : String} {r : Option Bytes} {u : User}
    (hinv : NonNegBalances ctx.state) (hg : ctx.GetState k = some r)
    (hu : unmarshalUser r = some u) : 0 ≤ u.Balance := by
  cases r with
  | none => simp [unmarshalUser] at hu
  | some d => exact decoded_nonneg hinv hg hu

theorem ApproveSpender_nonneg {ctx : Stub} (hinv : NonNegBalances ctx.state)
    (owner spender : String) (amount : ℚ) (h0 : 0 ≤ amount) (k : String) :
    NonNegAt (ApproveSpender ctx owner spender amount).2.state k := by
  unfold ApproveSpender
  split
  · exact hinv k
  · exact hinv k
  · next d hg =>
    split
    · exact hinv k
    · next ownerAccount ho =>
      have hon := decoded_nonneg hinv hg ho
      split
      · exact hinv k
      · split
        · exact hinv k
        · next spenderData hgs =>
          split
          · exact hinv k
          · next spenderInfo hsp =>
            have hsn := read_nonneg hinv hgs hsp
            split
            · exact hinv k
            · dsimp only
              split
              · exact hinv k
              · next ctx1 h1 =>
                have hk1 : NonNegAt ctx1.state k :=
                  NonNegAt_PutState h1 (hinv k) (fun _ => hon)
                split
                · exact hk1
                · next h2 =>
                  exact NonNegAt_PutState h2 hk1 (fun _ => by simpa using add_nonneg hsn h0)

theorem TransferFrom_nonneg {ctx : Stub} (hinv : NonNegBalances ctx.state)
    (owner spender recipient : String) (amount : ℚ) (h0 : 0 ≤ amount) (k : String)
    (hk : k ≠ spender) :
    NonNegAt (TransferFromApprovedSpenders ctx owner spender recipient amount).2.state k := by
  unfold TransferFromApprovedSpenders
  split
  · exact hinv k
  · exact hinv k
  · next d hg =>
    split
    · exact hinv k
    · next ownerAccount ho =>
      have hon := decoded_nonneg hinv hg ho
      split
      · exact hinv k
      · split
        · exact hinv k
        · dsimp only
          split
          · exact hinv k
          · split
            · exact hinv k
            · split
              · exact hinv k
              · split
                · exact hinv k
                · next recipientAccount hr =>
                  have hrn := receiver_nonneg hinv hr
                  split
                  · exact hinv k
                  · next ctx1 h1 =>
                    have hk1 : NonNegAt ctx1.state k :=
                      NonNegAt_PutState h1 (hinv k) (fun _ => hon)
                    split
                    · exact hk1
                    · next ctx2 h2 =>
                      have hk2 : NonNegAt ctx2.state k :=
                        NonNegAt_PutState h2 hk1 (fun _ => by simpa using add_nonneg hrn h0)
                      split
                      · exact hk2
                      · next h3 =>
                        exact NonNegAt_PutState h3 hk2 (fun h => absurd h hk)

/-- Claim C3 as stated fails: every record of `storeZero` has a non-negative
balance, yet `TransferTokens(a, b, -5)` passes the balance test and stores
the balance `-5` for `b`. -/
theorem nonNegBalances_counterexample :
    NonNegBalances storeZero ∧
    GetBalance (Call.run (reliable storeZero) (.transferTokens "a" "b" (-5))).2 "b"
      = .ok (-5) ∧
    ¬ NonNegBalances (Call.run (reliable storeZero) (.transferTokens "a" "b" (-5))).2.state := by
  have hget : GetBalance (Call.run (reliable storeZero) (.transferTokens "a" "b" (-5))).2 "b"
      = .ok (-5) := by
    norm_num +decide [Call.run, GetBalance, TransferTokens, storeZero, unmarshalUser,
      marshalUser, receiverAccount, Store.put_apply, User.zero]
  refine ⟨?_, hget, ?_⟩
  · intro k d u hd hu
    unfold storeZero at hd
    split at hd
    · cases hd
      simp [marshalUser] at hu
      subst hu
      exact le_refl _
    · cases hd
  · intro hinv
    obtain ⟨d, u, hk, hu, hb⟩ := GetBalance_stub_ok hget
    have := hinv "b" d u hk hu
    rw [hb] at this
    norm_num at this

/-- With a non-negative amount the spender's balance can still go negative:
`TransferFromApprovedSpenders` tests the owner's balance (10) and debits the
spender's (1), leaving `-4` stored for `s`. -/
theorem transferFrom_spender_unchecked :
    NonNegBalances storeApproved ∧
    (TransferFromApprovedSpenders (reliable storeApproved) "o" "s" "r" 5).1 = .ok ∧
    GetBalance (TransferFromApprovedSpenders (reliable storeApproved) "o" "s" "r" 5).2 "s"
      = .ok (-4) := by
  refine ⟨?_, ?_, ?_⟩
  · intro k d u hd hu
    unfold storeApproved at hd
    split at hd
    · cases hd
      simp [marshalUser] at hu
      subst hu
      norm_num
    · split at hd
      · cases hd
        simp [marshalUser] at hu
        subst hu
        norm_num
      · cases hd
  · norm_num +decide [TransferFromApprovedSpenders, storeApproved, unmarshalUser, marshalUser,
      mapLookup, mapAdd, emptyMap, receiverAccount, Store.put_apply]
  · norm_num +decide [TransferFromApprovedSpenders, GetBalance, storeApproved, unmarshalUser,
      marshalUser, mapLookup, mapAdd, emptyMap, receiverAccount, Store.put_apply]

/-- Claim C3, amended: from a stub whose account records all have a
non-negative balance, an operation called with a non-negative amount leaves a
non-negative balance in the record of every key `k`, unless the operation is
`TransferFromApprovedSpenders` and `k` is its spender. -/
theorem nonNegBalances_preserved (ctx : Stub) (c : Call)
    (hinv : NonNegBalances ctx.state) (hamt : 0 ≤ c.amount)
    (k : String) (hk : ∀ o r a, c ≠ Call.transferFrom o k r a) :
    NonNegAt (c.run ctx).2.state k := by
  cases c with
  | createuser name => exact Createuser_nonneg hinv name k
  | initLedger symbol name initialSupply admin =>
    exact InitLedger_nonneg hinv symbol name initialSupply admin hamt k
  | mintTokens admin amount => exact MintTokens_nonneg hinv admin amount hamt k
  | transferTokens src dst amount => exact TransferTokens_nonneg hinv src dst amount hamt k
  | burnTokens user amount => exact BurnTokens_nonneg hinv user amount k
  | approveSpender owner spender amount =>
    exact ApproveSpender_nonneg hinv owner spender amount hamt k
  | transferFrom owner spender recipient amount =>
    refine TransferFrom_nonneg hinv owner spender recipient amount hamt k ?_
    rintro rfl
    exact hk owner recipient amount rfl

/-- Claim C3, amended, at a concrete input: `x` holds 10 and sends 5 to `y`;
the record of `y` is non-negative afterwards. -/
theorem nonNegBalances_preserved_witness :
    NonNegAt (Call.run (reliable storeX) (.transferTokens "x" "y" 5)).2.state "y" :=
  nonNegBalances_preserved (reliable storeX) (.transferTokens "x" "y" 5)
    (by
      intro k d u hd hu
      have hd2 : storeX k = some d := hd
      unfold storeX at hd2
      split at hd2
      · cases hd2
        simp [marshalUser] at hu
        subst hu
        norm_num
      · cases hd2)
    (by norm_num [Call.amount]) "y" (by intro o r a h; cases h)

/-! ## C4: a second initialisation is rejected -/

theorem InitLedger_present {ctx : Stub} {b : Bytes}
    (h : ctx.GetState tokenKey = some (some b))
    (symbol name : String) (initialSupply : ℚ) (admin : String) :
    InitLedger ctx symbol name initialSupply admin
      = (.error .tokenAlreadyInitialized, ctx) := by
  simp [InitLedger, h]

theorem GetState_after_put {ctx ctx1 : Stub} {j k : String} {v : Bytes}
    (h : ctx.PutState j v = some ctx1) :
    ctx1.GetState k = if ctx.getFails k then none
      else some (if k = j then some v else ctx.state k) := by
  obtain ⟨hs, hg, _⟩ := PutState_state h
  simp [Stub.GetState, hs, hg, Store.put_apply]

theorem GetState_none_flag {ctx : Stub} {k : String} {r : Option Bytes}
    (h : ctx.GetState k = some r) : ctx.getFails k = false := by
  unfold Stub.GetState at h
  split at h
  · cases h
  · simpa using ‹¬ctx.getFails k = true›

theorem InitLedger_ok_present {ctx : Stub} {symbol name : String} {initialSupply : ℚ}
    {admin : String}
    (h1 : (InitLedger ctx symbol name initialSupply admin).1 = .ok) :
    ∃ b, (InitLedger ctx symbol name initialSupply admin).2.GetState tokenKey
      = some (some b) := by
  unfold InitLedger at h1 ⊢
  split at h1
  · cases h1
  · cases h1
  · next hg =>
    have hf := GetState_none_flag hg
    dsimp only at h1 ⊢
    split at h1
    · cases h1
    · next ctx1 hp1 =>
      split at h1
      · cases h1
      · next ctx2 hp2 =>
        simp only [hg, hp1, hp2]
        rw [GetState_after_put hp2]
        have hf1 : ctx1.getFails tokenKey = false := by
          rw [(PutState_state hp1).2.1]; exact hf
        simp only [hf1]
        by_cases hk : tokenKey = admin
        · exact ⟨marshalUser ⟨admin, initialSupply, some emptyMap⟩, by simp [hk]⟩
        · refine ⟨marshalToken ⟨symbol, name, initialSupply, admin⟩, ?_⟩
          simp [hk, (PutState_state hp1).1, Store.put_apply]

/-- Claim C4: once an `InitLedger` call has succeeded, a second call with any
arguments returns the already-initialised error and leaves the stub, hence
the whole store and the record at `tokenKey`, as the first call left it. -/
theorem initLedger_second_call_rejected (ctx : Stub) (symbol name : String)
    (initialSupply : ℚ) (admin : String)
    (symbol2 name2 : String) (initialSupply2 : ℚ) (admin2 : String)
    (h1 : (InitLedger ctx symbol name initialSupply admin).1 = .ok) :
    InitLedger (InitLedger ctx symbol name initialSupply admin).2
        symbol2 name2 initialSupply2 admin2
      = (.error .tokenAlreadyInitialized,
          (InitLedger ctx symbol name initialSupply admin).2) := by
  obtain ⟨b, hb⟩ := InitLedger_ok_present h1
  exact InitLedger_present hb symbol2 name2 initialSupply2 admin2

/-- Claim C4 at a concrete input: initialisation of the empty store followed
by a second call with other arguments. -/
theorem initLedger_second_call_rejected_witness :
    InitLedger (InitLedger (reliable emptyStore) "TOK" "Tok" 1000 "admin1").2
        "XYZ" "Other" 5 "admin2"
      = (.error .tokenAlreadyInitialized,
          (InitLedger (reliable emptyStore) "TOK" "Tok" 1000 "admin1").2) :=
  initLedger_second_call_rejected (reliable emptyStore) "TOK" "Tok" 1000 "admin1"
    "XYZ" "Other" 5 "admin2"
    (by simp +decide [InitLedger, emptyStore])

/-! ## C9: approval and delegated transfer with a missing spender -/

/-- Claim C9, evaluated: `o` has a record and `s` has none.  Both operations
stop without a write, but with the decode error of line 170 / 333, because
the test after the spender read looks at `ownerData`. -/
theorem missing_spender_decode_error :
    GetBalance (reliable storeOwnerOnly) "o" = .ok 10 ∧
    storeOwnerOnly "s" = none ∧
    ApproveSpender (reliable storeOwnerOnly) "o" "s" 5
      = (.error .unmarshalOwnerData, reliable storeOwnerOnly) ∧
    TransferFromApprovedSpenders (reliable storeOwnerOnly) "o" "s" "r" 5
      = (.error .unmarshalOwnerData, reliable storeOwnerOnly) := by
  refine ⟨?_, ?_, ?_, ?_⟩ <;>
  norm_num +decide [ApproveSpender, TransferFromApprovedSpenders, GetBalance, storeOwnerOnly,
    unmarshalUser, marshalUser]

/-- With a missing spender `ApproveSpender` stops at the decode of the spender
data, for every store in which the owner passes the balance test. -/
theorem approveSpender_missing_spender (s : Store) (owner spender : String) (amount b : ℚ)
    (hrec : GetBalance (reliable s) owner = .ok b) (hamt : amount ≤ b)
    (hmiss : s spender = none) :
    ApproveSpender (reliable s) owner spender amount
      = (.error .unmarshalOwnerData, reliable s) := by
  obtain ⟨d, u, hk, hu, rfl⟩ := GetBalance_reliable_ok hrec
  simp [ApproveSpender, hk, unmarshalUser, hu, not_lt.mpr hamt, hmiss]

/-- With a missing spender `TransferFromApprovedSpenders` stops at the decode
of the spender data, for every store in which the owner has a record. -/
theorem transferFrom_missing_spender (s : Store) (owner spender recipient : String)
    (amount b : ℚ)
    (hrec : GetBalance (reliable s) owner = .ok b) (hmiss : s spender = none) :
    TransferFromApprovedSpenders (reliable s) owner spender recipient amount
      = (.error .unmarshalOwnerData, reliable s) := by
  obtain ⟨d, u, hk, hu, rfl⟩ := GetBalance_reliable_ok hrec
  simp [TransferFromApprovedSpenders, hk, unmarshalUser, hu, hmiss]

/-! ## C12: the allowance test of a delegated transfer -/

theorem GetUser_inv {ctx : Stub} {k : String} {u : User}
    (h : GetUser ctx k = .ok u) :
    ∃ d, ctx.GetState k = some (some d) ∧ d.asUser = some u := by
  unfold GetUser at h
  split at h
  · cases h
  · cases h
  · next d hg =>
    split at h
    · cases h
    · next v hv =>
      cases h
      exact ⟨d, hg, hv⟩

/-- Claim C12: when `owner` and `spender` both have records, a missing
allowance entry for `spender`, or one below `amount`, makes
`TransferFromApprovedSpenders` return the allowance error and leave the stub
unchanged; an entry of at least `amount` never gives that error. -/
theorem transferFrom_allowance_test (ctx : Stub) (owner spender recipient : String)
    (amount : ℚ) (o sp : User)
    (ho : GetUser ctx owner = .ok o) (hs : GetUser ctx spender = .ok sp) :
    ((mapLookup o.Allowances spender).2 = false ∨ (mapLookup o.Allowances spender).1 < amount →
      TransferFromApprovedSpenders ctx owner spender recipient amount
        = (.error .spenderAllowanceExceeded, ctx)) ∧
    ((mapLookup o.Allowances spender).2 = true →
      amount ≤ (mapLookup o.Allowances spender).1 →
      (TransferFromApprovedSpenders ctx owner spender recipient amount).1
        ≠ .error .spenderAllowanceExceeded) := by
  obtain ⟨d, hg, hu⟩ := GetUser_inv ho
  obtain ⟨e, hg2, hv⟩ := GetUser_inv hs
  constructor
  · intro h
    have hc : (!(mapLookup o.Allowances spender).2
        || decide ((mapLookup o.Allowances spender).1 < amount)) = true := by
      rcases h with h | h <;> simp [h]
    simp [TransferFromApprovedSpenders, hg, unmarshalUser, hu, hg2, hv, hc]
  · intro h1 h2
    have hc : ¬ (!(mapLookup o.Allowances spender).2
        || decide ((mapLookup o.Allowances spender).1 < amount)) = true := by
      simp [h1, not_lt.mpr h2]
    intro h
    unfold TransferFromApprovedSpenders at h
    simp only [hg, unmarshalUser, hu, hg2, hv] at h
    rw [if_neg hc] at h
    iterate 6 (all_goals (try split at h))
    all_goals simp at h

/-- Claim C12 at a concrete input: `o` has granted 5 to `s`, who asks for
6. -/
theorem transferFrom_allowance_test_witness :
    ((mapLookup (some (mapAdd emptyMap "s" 5)) "s").2 = false
        ∨ (mapLookup (some (mapAdd emptyMap "s" 5)) "s").1 < 6 →
      TransferFromApprovedSpenders (reliable storeApproved) "o" "s" "r" 6
        = (.error .spenderAllowanceExceeded, reliable storeApproved)) ∧
    ((mapLookup (some (mapAdd emptyMap "s" 5)) "s").2 = true →
      6 ≤ (mapLookup (some (mapAdd emptyMap "s" 5)) "s").1 →
      (TransferFromApprovedSpenders (reliable storeApproved) "o" "s" "r" 6).1
        ≠ .error .spenderAllowanceExceeded) :=
  transferFrom_allowance_test (reliable storeApproved) "o" "s" "r" 6
    ⟨"o", 10, some (mapAdd emptyMap "s" 5)⟩
    ⟨"s", 1, some emptyMap⟩
    (by simp +decide [GetUser, storeApproved, unmarshalUser, marshalUser])
    (by simp +decide [GetUser, storeApproved, unmarshalUser, marshalUser])

/-! ## What every invocation preserves -/

theorem run_preserves (P : Stub → Prop) (c : Call)
    (hP : ∀ ctx ctx1 k v, ctx.PutState k v = some ctx1 → P ctx → k ∈ c.writeKeys →
      Marshalled v → P ctx1)
    (ctx : Stub) (h : P ctx) : P (c.run ctx).2 := by
  cases c with
  | createuser name =>
    simp only [Call.run]
    unfold Createuser
    iterate 4 (all_goals (first | split | (dsimp only; split) | skip))
    all_goals first
      | exact h
      | exact hP _ _ _ _ (by assumption) h (by simp [Call.writeKeys]) (by simp [Marshalled])
  | initLedger symbol name initialSupply admin =>
    simp only [Call.run]
    unfold InitLedger
    iterate 6 (all_goals (first | split | (dsimp only; split) | skip))
    all_goals first
      | exact h
      | exact hP _ _ _ _ (by assumption) h (by simp [Call.writeKeys]) (by simp [Marshalled])
      | exact hP _ _ _ _ (by assumption)
          (hP _ _ _ _ (by assumption) h (by simp [Call.writeKeys]) (by simp [Marshalled]))
          (by simp [Call.writeKeys]) (by simp [Marshalled])
  | mintTokens admin amount =>
    simp only [Call.run]
    unfold MintTokens
    iterate 8 (all_goals (first | split | (dsimp only; split) | skip))
    all_goals first
      | exact h
      | exact hP _ _ _ _ (by assumption) h (by simp [Call.writeKeys]) (by simp [Marshalled])
      | exact hP _ _ _ _ (by assumption)
          (hP _ _ _ _ (by assumption) h (by simp [Call.writeKeys]) (by simp [Marshalled]))
          (by simp [Call.writeKeys]) (by simp [Marshalled])
  | transferTokens src dst amount =>
    simp only [Call.run]
    unfold TransferTokens
    iterate 8 (all_goals (first | split | (dsimp only; split) | skip))
    all_goals first
      | exact h
      | exact hP _ _ _ _ (by assumption) h (by simp [Call.writeKeys]) (by simp [Marshalled])
      | exact hP _ _ _ _ (by assumption)
          (hP _ _ _ _ (by assumption) h (by simp [Call.writeKeys]) (by simp [Marshalled]))
          (by simp [Call.writeKeys]) (by simp [Marshalled])
  | burnTokens user amount =>
    simp only [Call.run]
    unfold BurnTokens
    iterate 8 (all_goals (first | split | (dsimp only; split) | skip))
    all_goals first
      | exact h
      | exact hP _ _ _ _ (by assumption) h (by simp [Call.writeKeys]) (by simp [Marshalled])
  | approveSpender owner spender amount =>
    simp only [Call.run]
    unfold ApproveSpender
    iterate 10 (all_goals (first | split | (dsimp only; split) | skip))
    all_goals first
      | exact h
      | exact hP _ _ _ _ (by assumption) h (by simp [Call.writeKeys]) (by simp [Marshalled])
      | exact hP _ _ _ _ (by assumption)
          (hP _ _ _ _ (by assumption) h (by simp [Call.writeKeys]) (by simp [Marshalled]))
          (by simp [Call.writeKeys]) (by simp [Marshalled])
  | transferFrom owner spender recipient amount =>
    simp only [Call.run]
    unfold TransferFromApprovedSpenders
    iterate 12 (all_goals (first | split | (dsimp only; split) | skip))
    all_goals first
      | exact h
      | exact hP _ _ _ _ (by assumption) h (by simp [Call.writeKeys]) (by simp [Marshalled])
      | exact hP _ _ _ _ (by assumption)
          (hP _ _ _ _ (by assumption) h (by simp [Call.writeKeys]) (by simp [Marshalled]))
          (by simp [Call.writeKeys]) (by simp [Marshalled])
      | exact hP _ _ _ _ (by assumption)
          (hP _ _ _ _ (by assumption)
            (hP _ _ _ _ (by assumption) h (by simp [Call.writeKeys]) (by simp [Marshalled]))
            (by simp [Call.writeKeys]) (by simp [Marshalled]))
          (by simp [Call.writeKeys]) (by simp [Marshalled])

theorem run_frame (ctx : Stub) (c : Call) (j : String) (hj : j ∉ c.writeKeys) :
    (c.run ctx).2.state j = ctx.state j := by
  refine run_preserves (fun x => x.state j = ctx.state j) c ?_ ctx rfl
  intro a b k v hput ha hk _
  rw [(PutState_state hput).1, Store.put_apply]
  have hne : j ≠ k := fun h => hj (h ▸ hk)
  simp [hne, ha]

/-! ## C14: the metadata record -/

theorem MintTokens_meta (ctx : Stub) (admin : String) (amount : ℚ) (hadm : admin ≠ tokenKey) :
    (MintTokens ctx admin amount).2.state tokenKey = ctx.state tokenKey ∨
    ∃ t, unmarshalToken (ctx.state tokenKey) = some t ∧
      (MintTokens ctx admin amount).2.state tokenKey
        = some (marshalToken ⟨t.Symbol, t.Name, t.TotalSupply + amount, t.Admin⟩) ∧
      ((MintTokens ctx admin amount).1 = .ok ∨
        (MintTokens ctx admin amount).1 = .error .unmarshalAdminAccount ∨
        (MintTokens ctx admin amount).1 = .error .updateAdminBalance) := by
  have hne : tokenKey ≠ admin := fun h => hadm h.symm
  unfold MintTokens
  split
  · exact Or.inl rfl
  · exact Or.inl rfl
  · next tokenData hg =>
    have hst := GetState_some hg
    split
    · exact Or.inl rfl
    · next token ht =>
      split
      · exact Or.inl rfl
      · dsimp only
        split
        · exact Or.inl rfl
        · next ctx1 h1 =>
          have h1s := (PutState_state h1).1
          have hdec : unmarshalToken (ctx.state tokenKey) = some token := by rw [hst]; exact ht
          split
          · refine Or.inr ⟨token, hdec, ?_, Or.inr (Or.inl rfl)⟩
            simp [h1s, Store.put_apply]
          · split
            · refine Or.inr ⟨token, hdec, ?_, Or.inr (Or.inr rfl)⟩
              simp [h1s, Store.put_apply]
            · next ctx2 h2 =>
              refine Or.inr ⟨token, hdec, ?_, Or.inl rfl⟩
              simp [(PutState_state h2).1, h1s, Store.put_apply, hne]

theorem InitLedger_held (ctx : Stub) (symbol name : String) (initialSupply : ℚ)
    (admin : String) (h : ctx.state tokenKey ≠ none) :
    (InitLedger ctx symbol name initialSupply admin).2 = ctx := by
  unfold InitLedger
  split
  · rfl
  · rfl
  · next hg => exact absurd (GetState_some hg) h

/-- Claim C14 as stated fails: after a successful `InitLedger` on the empty
store, `TransferTokens(admin1, TOKEN, 10)` succeeds and replaces the metadata
by an account record, which decodes as a `Token` without symbol and admin. -/
theorem metadata_overwritten_by_transfer :
    Reachable afterInit ∧
    unmarshalToken (afterInit.state tokenKey) = some ⟨"TOK", "Tok", 1000, "admin1"⟩ ∧
    (TransferTokens afterInit "admin1" "TOKEN" 10).1 = .ok ∧
    unmarshalToken ((TransferTokens afterInit "admin1" "TOKEN" 10).2.state tokenKey)
      = some ⟨"", "Tok", 0, ""⟩ ∧
    (TransferTokens afterInit "admin1" "TOKEN" 10).2.state tokenKey
      ≠ afterInit.state tokenKey := by
  have h0 : unmarshalToken (afterInit.state tokenKey) = some ⟨"TOK", "Tok", 1000, "admin1"⟩ := by
    norm_num +decide [afterInit, Call.run, InitLedger, emptyStore, reliable, Stub.GetState,
      Stub.PutState, Store.put_apply, unmarshalToken, marshalToken, marshalUser, tokenKey]
  have h1 : unmarshalToken ((TransferTokens afterInit "admin1" "TOKEN" 10).2.state tokenKey)
      = some ⟨"", "Tok", 0, ""⟩ := by
    norm_num +decide [afterInit, Call.run, InitLedger, TransferTokens, emptyStore, reliable,
      Stub.GetState, Stub.PutState, Store.put_apply, unmarshalToken, unmarshalUser,
      marshalToken, marshalUser, tokenKey, receiverAccount]
  refine ⟨Reachable.step _ (Reachable.init _), h0, ?_, h1, ?_⟩
  · norm_num +decide [afterInit, Call.run, InitLedger, TransferTokens, emptyStore, reliable,
      Stub.GetState, Stub.PutState, Store.put_apply, unmarshalToken, unmarshalUser,
      marshalToken, marshalUser, tokenKey, receiverAccount]
  · intro h
    rw [h, h0] at h1
    simp at h1

/-- Claim C14, amended: for an invocation none of whose identity arguments is
`tokenKey`, the record at `tokenKey` is unchanged unless the invocation is an
`InitLedger` or a `MintTokens`; across `MintTokens` the symbol, name and admin
of the metadata are unchanged; and an `InitLedger` on a store that holds a
record at `tokenKey` changes nothing. -/
theorem metadata_frame (ctx : Stub) (c : Call) (hid : tokenKey ∉ c.identities) :
    (c.isInit = false → c.isMint = false →
      (c.run ctx).2.state tokenKey = ctx.state tokenKey) ∧
    (c.isMint = true → ∀ t, unmarshalToken (ctx.state tokenKey) = some t →
      ∃ t', unmarshalToken ((c.run ctx).2.state tokenKey) = some t' ∧
        t'.Symbol = t.Symbol ∧ t'.Name = t.Name ∧ t'.Admin = t.Admin) ∧
    (c.isInit = true → ctx.state tokenKey ≠ none → (c.run ctx).2 = ctx) := by
  refine ⟨?_, ?_, ?_⟩
  · intro hi hm
    apply run_frame
    cases c <;> simp_all [Call.isInit, Call.isMint, Call.writeKeys, Call.identities]
  · intro hm t ht
    cases c <;> simp [Call.isMint] at hm
    next admin amount =>
    have hadm : admin ≠ tokenKey := by
      intro h; exact hid (by simp [Call.identities, h])
    rcases MintTokens_meta ctx admin amount hadm with h | ⟨t2, ht2, h, _⟩
    · exact ⟨t, by simp only [Call.run]; rw [h]; exact ht, rfl, rfl, rfl⟩
    · rw [ht] at ht2
      cases ht2
      exact ⟨⟨t.Symbol, t.Name, t.TotalSupply + amount, t.Admin⟩,
        by simp only [Call.run]; rw [h]; rfl, rfl, rfl, rfl⟩
  · intro hi hheld
    cases c <;> simp [Call.isInit] at hi
    exact InitLedger_held ctx _ _ _ _ hheld

/-- Claim C14, amended, at a concrete input: `admin1` burns 5 on the
initialised store. -/
theorem metadata_frame_witness :
    (Call.isInit (.burnTokens "admin1" 5) = false → Call.isMint (.burnTokens "admin1" 5) = false →
      (Call.run (reliable storeInit) (.burnTokens "admin1" 5)).2.state tokenKey
        = (reliable storeInit).state tokenKey) ∧
    (Call.isMint (.burnTokens "admin1" 5) = true →
      ∀ t, unmarshalToken ((reliable storeInit).state tokenKey) = some t →
      ∃ t', unmarshalToken
          ((Call.run (reliable storeInit) (.burnTokens "admin1" 5)).2.state tokenKey) = some t' ∧
        t'.Symbol = t.Symbol ∧ t'.Name = t.Name ∧ t'.Admin = t.Admin) ∧
    (Call.isInit (.burnTokens "admin1" 5) = true → (reliable storeInit).state tokenKey ≠ none →
      (Call.run (reliable storeInit) (.burnTokens "admin1" 5)).2 = reliable storeInit) :=
  metadata_frame (reliable storeInit) (.burnTokens "admin1" 5)
    (by simp +decide [Call.identities, tokenKey])

/-! ## C16: failures of `GetState` -/

/-- Claim C16 as stated fails at the recipient read of `TransferTokens`: the
read of `b` reports an error, the call still returns nil, and the record of
`b` (balance 7) is replaced by a zero record credited with 5. -/
theorem unchecked_read_failure :
    stubReadFault.GetState "b" = none ∧
    unmarshalUser (stubReadFault.state "b") = some ⟨"b", 7, some emptyMap⟩ ∧
    (TransferTokens stubReadFault "a" "b" 5).1 = .ok ∧
    unmarshalUser ((TransferTokens stubReadFault "a" "b" 5).2.state "b")
      = some ⟨"", 5, none⟩ := by
  refine ⟨?_, ?_, ?_, ?_⟩ <;>
  norm_num +decide [TransferTokens, stubReadFault, storeAB, Stub.GetState, Stub.PutState,
    Store.put_apply, unmarshalUser, marshalUser, receiverAccount, User.zero]

/-- Claim C16, amended: when `GetState` fails for a key among the reads whose
error the operation tests, the invocation returns an error and leaves the stub
unchanged, and both queries on that key return an error.  The recipient reads
of `TransferTokens` and `TransferFromApprovedSpenders` and the admin-account
read of `MintTokens` are not among those reads. -/
theorem read_failure_surfaces (ctx : Stub) (c : Call) (k : String)
    (hk : k ∈ c.checkedReads) (hfail : ctx.getFails k = true) :
    (∃ e, c.run ctx = (.error e, ctx)) ∧
    GetBalance ctx k = .error .userNotFound ∧ GetUser ctx k = .error .userNotFound := by
  have hg : ctx.GetState k = none := by simp [Stub.GetState, hfail]
  refine ⟨?_, by simp [GetBalance, hg], by simp [GetUser, hg]⟩
  cases c with
  | createuser name =>
    simp [Call.checkedReads] at hk; subst hk
    simp only [Call.run, Createuser, hg]; exact ⟨_, rfl⟩
  | initLedger symbol name initialSupply admin =>
    simp [Call.checkedReads] at hk; subst hk
    simp only [Call.run, InitLedger, hg]; exact ⟨_, rfl⟩
  | mintTokens admin amount =>
    simp [Call.checkedReads] at hk; subst hk
    simp only [Call.run, MintTokens, hg]; exact ⟨_, rfl⟩
  | transferTokens src dst amount =>
    simp [Call.checkedReads] at hk; subst hk
    simp only [Call.run, TransferTokens, hg]; exact ⟨_, rfl⟩
  | burnTokens user amount =>
    simp [Call.checkedReads] at hk; subst hk
    simp only [Call.run, BurnTokens, hg]; exact ⟨_, rfl⟩
  | approveSpender owner spender amount =>
    simp [Call.checkedReads] at hk
    rcases hk with rfl | rfl
    · simp only [Call.run, ApproveSpender, hg]; exact ⟨_, rfl⟩
    · simp only [Call.run]
      unfold ApproveSpender
      simp only [hg]
      iterate 6 (all_goals (first | split | skip))
      all_goals exact ⟨_, rfl⟩
  | transferFrom owner spender recipient amount =>
    simp [Call.checkedReads] at hk
    rcases hk with rfl | rfl
    · simp only [Call.run, TransferFromApprovedSpenders, hg]; exact ⟨_, rfl⟩
    · simp only [Call.run]
      unfold TransferFromApprovedSpenders
      simp only [hg]
      iterate 6 (all_goals (first | split | skip))
      all_goals exact ⟨_, rfl⟩

/-- Claim C16, amended, at a concrete input: `BurnTokens(b, 1)` on a stub
whose read of `b` fails. -/
theorem read_failure_surfaces_witness :
    (∃ e, Call.run stubReadFault (.burnTokens "b" 1) = (.error e, stubReadFault)) ∧
    GetBalance stubReadFault "b" = .error .userNotFound ∧
    GetUser stubReadFault "b" = .error .userNotFound :=
  read_failure_surfaces stubReadFault (.burnTokens "b" 1) "b" (by simp [Call.checkedReads])
    (by simp +decide [stubReadFault])

/-! ## C17: the scenario of the specification -/

/-- Claim C17: from the empty store, `InitLedger("TOK", "Tok", 1000,
"admin1")`, `MintTokens("admin1", 500)`, `TransferTokens("admin1", "u1", 300)`
and `BurnTokens("u1", 100)` succeed in turn, with the balances and total
supply the scenario lists after each step. -/
theorem scenario_balances :
    (InitLedger (reliable emptyStore) "TOK" "Tok" 1000 "admin1").1 = .ok ∧
    GetBalance afterInit "admin1" = .ok 1000 ∧
    (MintTokens afterInit "admin1" 500).1 = .ok ∧
    GetBalance (MintTokens afterInit "admin1" 500).2 "admin1" = .ok 1500 ∧
    totalSupplyOf (MintTokens afterInit "admin1" 500).2 = some 1500 ∧
    (TransferTokens (MintTokens afterInit "admin1" 500).2 "admin1" "u1" 300).1 = .ok ∧
    GetBalance (TransferTokens (MintTokens afterInit "admin1" 500).2 "admin1" "u1" 300).2
      "admin1" = .ok 1200 ∧
    GetBalance (TransferTokens (MintTokens afterInit "admin1" 500).2 "admin1" "u1" 300).2
      "u1" = .ok 300 ∧
    (BurnTokens (TransferTokens (MintTokens afterInit "admin1" 500).2 "admin1" "u1" 300).2
      "u1" 100).1 = .ok ∧
    GetBalance (BurnTokens (TransferTokens (MintTokens afterInit "admin1" 500).2
      "admin1" "u1" 300).2 "u1" 100).2 "u1" = .ok 200 ∧
    totalSupplyOf (BurnTokens (TransferTokens (MintTokens afterInit "admin1" 500).2
      "admin1" "u1" 300).2 "u1" 100).2 = some 1500 := by
  refine ⟨?_, ?_, ?_, ?_, ?_, ?_, ?_, ?_, ?_, ?_, ?_⟩ <;>
  norm_num +decide [afterInit, Call.run, InitLedger, MintTokens, TransferTokens, BurnTokens,
    GetBalance, totalSupplyOf, emptyStore, reliable, Stub.GetState, Stub.PutState,
    Store.put_apply, unmarshalToken, unmarshalUser, marshalToken, marshalUser, tokenKey,
    mintAdminAccount, receiverAccount, User.zero]

/-! ## C18: account creation -/

/-- Claim C18: `Createuser(name)` returns the already-exists error and leaves
the stub unchanged when a record exists under `name`; otherwise it succeeds,
changes no other key, and afterwards `GetUser(name)` returns the record with
name `name`, balance 0 and an empty allowance map, and `GetBalance(name)`
returns 0. -/
theorem createuser_effect (s : Store) (name : String) :
    (s name ≠ none →
      Createuser (reliable s) name = (.error .userAlreadyExists, reliable s)) ∧
    (s name = none →
      (Createuser (reliable s) name).1 = .ok ∧
      (∀ k, k ≠ name → (Createuser (reliable s) name).2.state k = s k) ∧
      GetUser (Createuser (reliable s) name).2 name = .ok ⟨name, 0, some emptyMap⟩ ∧
      GetBalance (Createuser (reliable s) name).2 name = .ok 0) := by
  constructor
  · intro h
    cases hk : s name with
    | none => exact absurd hk h
    | some d => simp [Createuser, hk]
  · intro h
    have hrun : Createuser (reliable s) name
        = (.ok, reliable (s.put name (marshalUser ⟨name, 0, some emptyMap⟩))) := by
      simp [Createuser, h]
    rw [hrun]
    refine ⟨rfl, ?_, ?_, ?_⟩
    · intro k hk
      simp [Store.put_apply, hk]
    · simp [GetUser, Store.put_apply, unmarshalUser, marshalUser]
    · simp [GetBalance, Store.put_apply, unmarshalUser, marshalUser]

/-! ## C19: JSON field names -/

/-- Claim C19, evaluated: the keys of an encoded `Token` are those the
specification lists, but the allowance map of a `User` is encoded under
`allownaces`; the key `allowances` is not used. -/
theorem user_tag_misspelled :
    Token.jsonTags = ["symbol", "name", "totalSupply", "admin"] ∧
    User.jsonTags = ["name", "balance", "allownaces"] ∧
    "allowances" ∉ User.jsonTags := by
  refine ⟨rfl, rfl, ?_⟩
  decide

/-- The only key shared by the two encodings is `name`, which is why a record
of one kind decodes as the other with just its name filled in. -/
theorem shared_json_tags :
    User.jsonTags.filter (fun k => decide (k ∈ Token.jsonTags)) = ["name"] := by
  decide

/-! ## C20: approval by an implicitly created owner -/

/-- Claim C20, evaluated: after `InitLedger` and `TransferTokens(admin1, u1,
300)` on the empty store, `u1` and `admin1` both have records and `u1` holds
300, but the record of `u1` was written from `User{}` and carries a nil
allowance map, so `ApproveSpender(u1, admin1, 100)` panics at line 175. -/
theorem approve_panics_on_implicit_owner :
    Reachable afterInitTransfer ∧
    GetBalance afterInitTransfer "u1" = .ok 300 ∧
    GetBalance afterInitTransfer "admin1" = .ok 700 ∧
    (unmarshalUser (afterInitTransfer.state "u1")).map User.Allowances = some none ∧
    ApproveSpender afterInitTransfer "u1" "admin1" 100 = (.panic, afterInitTransfer) := by
  refine ⟨Reachable.step _ (Reachable.step _ (Reachable.init _)), ?_, ?_, ?_, ?_⟩
  · norm_num +decide [afterInitTransfer, afterInit, Call.run, InitLedger, TransferTokens,
      GetBalance, emptyStore, reliable, Stub.GetState, Stub.PutState, Store.put_apply,
      unmarshalUser, marshalToken, marshalUser, tokenKey, receiverAccount, User.zero]
  · norm_num +decide [afterInitTransfer, afterInit, Call.run, InitLedger, TransferTokens,
      GetBalance, emptyStore, reliable, Stub.GetState, Stub.PutState, Store.put_apply,
      unmarshalUser, marshalToken, marshalUser, tokenKey, receiverAccount, User.zero]
  · norm_num +decide [afterInitTransfer, afterInit, Call.run, InitLedger, TransferTokens,
      GetBalance, emptyStore, reliable, Stub.GetState, Stub.PutState, Store.put_apply,
      unmarshalUser, marshalToken, marshalUser, tokenKey, receiverAccount, User.zero]
  · have hu : afterInitTransfer.GetState "u1" = some (some (marshalUser ⟨"", 300, none⟩)) := by
      norm_num +decide [afterInitTransfer, afterInit, Call.run, InitLedger, TransferTokens,
        emptyStore, reliable, Stub.GetState, Stub.PutState, Store.put_apply,
        unmarshalUser, marshalToken, marshalUser, tokenKey, receiverAccount, User.zero]
    have ha : afterInitTransfer.GetState "admin1"
        = some (some (marshalUser ⟨"admin1", 700, some emptyMap⟩)) := by
      norm_num +decide [afterInitTransfer, afterInit, Call.run, InitLedger, TransferTokens,
        emptyStore, reliable, Stub.GetState, Stub.PutState, Store.put_apply,
        unmarshalUser, marshalToken, marshalUser, tokenKey, receiverAccount, User.zero]
    norm_num [ApproveSpender, hu, ha, unmarshalUser, marshalUser]

/-! # Claims on the `float64` model

The claims below speak of sums and differences of amounts, or of every
returned error.  They are settled on the model `Fp`, where an amount is an
`F64` and `json.Marshal` fails on a NaN or an infinity. -/

set_option exponentiation.threshold 5000

namespace Fp

/-! ## Rounding is monotone -/

theorem bitLenAux_zero (f : ℕ) : bitLenAux f 0 = 0 := by
  cases f <;> simp [bitLenAux]

theorem bitLenAux_spec (f : ℕ) : ∀ n, n ≤ f →
    n < 2 ^ bitLenAux f n ∧ (0 < n → 2 ^ bitLenAux f n ≤ 2 * n) := by
  induction f with
  | zero =>
    intro n hn
    have h0 : n = 0 := by omega
    subst h0
    simp [bitLenAux]
  | succ f ih =>
    intro n hn
    by_cases h0 : n = 0
    · subst h0
      simp [bitLenAux]
    · have hhalf : n / 2 ≤ f := by omega
      obtain ⟨h1, h2⟩ := ih (n / 2) hhalf
      have hstep : bitLenAux (f + 1) n = bitLenAux f (n / 2) + 1 := by
        simp [bitLenAux, h0]
      rw [hstep, pow_succ]
      constructor
      · omega
      · intro _
        by_cases hq : n / 2 = 0
        · rw [hq, bitLenAux_zero]
          simp
          omega
        · have := h2 (by omega)
          omega

theorem bitLen_zero : bitLen 0 = 0 := rfl

theorem lt_pow_bitLen (n : ℕ) : n < 2 ^ bitLen n := (bitLenAux_spec n n (le_refl n)).1

theorem pow_bitLen_le (n : ℕ) (h : 0 < n) : 2 ^ bitLen n ≤ 2 * n :=
  (bitLenAux_spec n n (le_refl n)).2 h

theorem bitLen_mono {n m : ℕ} (h : n ≤ m) : bitLen n ≤ bitLen m := by
  by_contra hc
  have hlt : bitLen m + 1 ≤ bitLen n := by omega
  have hn : 0 < n := by
    rcases Nat.eq_zero_or_pos n with h0 | h0
    · subst h0; simp [bitLen_zero] at hlt
    · exact h0
  have h1 : 2 ^ (bitLen m + 1) ≤ 2 ^ bitLen n := Nat.pow_le_pow_right (by norm_num) hlt
  have h2 := pow_bitLen_le n hn
  have h3 := lt_pow_bitLen m
  rw [pow_succ] at h1
  omega

theorem roundNat_eq (n : ℕ) : roundNat n = roundAt (2 ^ (bitLen n - 53)) n := rfl

theorem roundAt_lower (P n : ℕ) : n / P * P ≤ roundAt P n := by
  unfold roundAt
  split
  · exact le_refl _
  · exact Nat.mul_le_mul_right P (Nat.le_succ _)

theorem roundAt_upper (P n : ℕ) : roundAt P n ≤ (n / P + 1) * P := by
  unfold roundAt
  split
  · exact Nat.mul_le_mul_right P (Nat.le_succ _)
  · exact le_refl _

theorem roundAt_mono {P n m : ℕ} (h : n ≤ m) : roundAt P n ≤ roundAt P m := by
  have hq : n / P ≤ m / P := Nat.div_le_div_right h
  rcases Nat.lt_or_eq_of_le hq with hlt | heq
  · calc roundAt P n ≤ (n / P + 1) * P := roundAt_upper P n
      _ ≤ m / P * P := Nat.mul_le_mul_right P hlt
      _ ≤ roundAt P m := roundAt_lower P m
  · have hn := Nat.div_add_mod n P
    have hm := Nat.div_add_mod m P
    rw [heq] at hn
    have hr : n % P ≤ m % P := by omega
    unfold roundAt
    rw [heq]
    split
    · split
      · exact le_refl _
      · exact Nat.mul_le_mul_right P (Nat.le_succ _)
    · next hcn =>
      split
      · next hcm =>
        exfalso
        apply hcn
        rcases hcm with hcm | ⟨hcm, hev⟩
        · left; omega
        · rcases Nat.lt_or_eq_of_le hr with hr2 | hr2
          · left; omega
          · right; exact ⟨by omega, hev⟩
      · exact le_refl _

theorem roundNat_le_pow (n : ℕ) : roundNat n ≤ 2 ^ bitLen n := by
  rw [roundNat_eq]
  have hk : bitLen n - 53 ≤ bitLen n := Nat.sub_le _ _
  have hsplit : 2 ^ bitLen n = 2 ^ (bitLen n - (bitLen n - 53)) * 2 ^ (bitLen n - 53) := by
    rw [← pow_add, Nat.sub_add_cancel hk]
  have hlt := lt_pow_bitLen n
  have hq : n / 2 ^ (bitLen n - 53) < 2 ^ (bitLen n - (bitLen n - 53)) := by
    rw [Nat.div_lt_iff_lt_mul (by positivity)]
    rw [← hsplit]
    exact hlt
  calc roundAt (2 ^ (bitLen n - 53)) n ≤ (n / 2 ^ (bitLen n - 53) + 1) * 2 ^ (bitLen n - 53) :=
        roundAt_upper _ _
    _ ≤ 2 ^ (bitLen n - (bitLen n - 53)) * 2 ^ (bitLen n - 53) :=
        Nat.mul_le_mul_right _ hq
    _ = 2 ^ bitLen n := hsplit.symm

theorem pow_le_roundNat (n : ℕ) (h : 0 < n) : 2 ^ (bitLen n - 1) ≤ roundNat n := by
  rw [roundNat_eq]
  have hL : 0 < bitLen n := by
    by_contra hc
    have h0 : bitLen n = 0 := by omega
    have := lt_pow_bitLen n
    rw [h0] at this
    omega
  have hk : bitLen n - 53 ≤ bitLen n - 1 := by omega
  have hsplit : 2 ^ (bitLen n - 1)
      = 2 ^ (bitLen n - 1 - (bitLen n - 53)) * 2 ^ (bitLen n - 53) := by
    rw [← pow_add, Nat.sub_add_cancel hk]
  have hge : 2 ^ (bitLen n - 1) ≤ n := by
    have h2 := pow_bitLen_le n h
    have h3 : 2 ^ bitLen n = 2 ^ (bitLen n - 1) * 2 := by
      rw [← pow_succ, Nat.sub_add_cancel hL]
    omega
  have hq : 2 ^ (bitLen n - 1 - (bitLen n - 53)) ≤ n / 2 ^ (bitLen n - 53) := by
    rw [Nat.le_div_iff_mul_le (by positivity)]
    rw [← hsplit]
    exact hge
  calc 2 ^ (bitLen n - 1)
      = 2 ^ (bitLen n - 1 - (bitLen n - 53)) * 2 ^ (bitLen n - 53) := hsplit
    _ ≤ n / 2 ^ (bitLen n - 53) * 2 ^ (bitLen n - 53) := Nat.mul_le_mul_right _ hq
    _ ≤ roundAt (2 ^ (bitLen n - 53)) n := roundAt_lower _ _

theorem roundNat_mono {n m : ℕ} (h : n ≤ m) : roundNat n ≤ roundNat m := by
  have hL := bitLen_mono h
  rcases Nat.lt_or_eq_of_le hL with hlt | heq
  · have hm : 0 < m := by
      rcases Nat.eq_zero_or_pos m with h0 | h0
      · subst h0
        have : n = 0 := by omega
        subst this
        omega
      · exact h0
    calc roundNat n ≤ 2 ^ bitLen n := roundNat_le_pow n
      _ ≤ 2 ^ (bitLen m - 1) := Nat.pow_le_pow_right (by norm_num) (by omega)
      _ ≤ roundNat m := pow_le_roundNat m hm
  · rw [roundNat_eq, roundNat_eq, heq]
    exact roundAt_mono h

theorem round_fin {z m : ℤ} (h : F64.round z = .fin m) :
    m = if z < 0 then -(roundNat z.natAbs : ℤ) else (roundNat z.natAbs : ℤ) := by
  unfold F64.round at h
  split at h
  · split at h <;> cases h
  · cases h
    rfl

theorem round_fin_mono {a b m : ℤ} (hab : a ≤ b) (ha : F64.round a = .fin a)
    (hb : F64.round b = .fin m) : a ≤ m := by
  have h1 := round_fin ha
  have h2 := round_fin hb
  by_cases hb0 : b < 0
  · have ha0 : a < 0 := lt_of_le_of_lt hab hb0
    rw [if_pos ha0] at h1
    rw [if_pos hb0] at h2
    have hle : b.natAbs ≤ a.natAbs := by omega
    have := roundNat_mono hle
    omega
  · rw [if_neg hb0] at h2
    by_cases ha0 : a < 0
    · omega
    · rw [if_neg ha0] at h1
      have hle : a.natAbs ≤ b.natAbs := by omega
      have := roundNat_mono hle
      omega

/-- Adding an amount that is not negative to a `float64` never gives less:
the sum, when it is finite, is at least the first operand (it can be equal to
it although the amount is positive). -/
theorem le_add_of_nonneg {x a : F64} (hx : x.isJsonNumber = true)
    (ha : F64.lt a F64.zero = false) (hfin : (F64.add x a).isFinite = true) :
    F64.le x (F64.add x a) = true := by
  cases x with
  | fin n =>
    simp only [F64.isJsonNumber, decide_eq_true_eq] at hx
    cases a with
    | fin b =>
      have hb : 0 ≤ b := by
        simpa [F64.lt, F64.zero] using ha
      simp only [F64.add] at hfin ⊢
      cases hr : F64.round (n + b) with
      | fin m =>
        have := round_fin_mono (show n ≤ n + b by omega) hx hr
        simp [F64.le, this]
      | posInf => rw [hr] at hfin; simp [F64.isFinite] at hfin
      | negInf => rw [hr] at hfin; simp [F64.isFinite] at hfin
      | nan => rw [hr] at hfin; simp [F64.isFinite] at hfin
    | posInf => simp [F64.add, F64.isFinite] at hfin
    | negInf => simp [F64.lt, F64.zero] at ha
    | nan => simp [F64.add, F64.isFinite] at hfin
  | posInf => simp [F64.isJsonNumber] at hx
  | negInf => simp [F64.isJsonNumber] at hx
  | nan => simp [F64.isJsonNumber] at hx

theorem le_self_of_jsonNumber {x : F64} (hx : x.isJsonNumber = true) : F64.le x x = true := by
  cases x <;> simp [F64.isJsonNumber] at hx
  simp [F64.le]

/-- The rounding and overflow of `float64` at the values used below: `1e16 + 1`
and `1e16 - 1` are `1e16`, `1e16 + 2` is another `float64`, and `1e308 + 1e308`
is `+Inf`. -/
theorem float64_rounding_examples :
    F64.add (F64.ofNat (10 ^ 16)) (F64.ofNat 1) = F64.ofNat (10 ^ 16) ∧
    F64.sub (F64.ofNat (10 ^ 16)) (F64.ofNat 1) = F64.ofNat (10 ^ 16) ∧
    F64.ofNat (10 ^ 16 + 2) ≠ F64.ofNat (10 ^ 16) ∧
    F64.add (F64.ofNat (10 ^ 308)) (F64.ofNat (10 ^ 308)) = .posInf ∧
    F64.add (F64.ofNat 10) (F64.ofNat 5) = F64.ofNat 15 ∧
    F64.isJsonNumber (F64.ofNat (10 ^ 16)) = true := by
  decide!

/-! ## Stub, store and encoding lemmas -/

theorem put_apply_fp (s : Store) (k : String) (v : Bytes) (j : String) :
    s.put k v j = if j = k then some v else s j := rfl

theorem PutState_state_fp {ctx ctx1 : Stub} {k : String} {v : Bytes}
    (h : ctx.PutState k v = some ctx1) :
    ctx1.state = ctx.state.put k v ∧ ctx1.getFails = ctx.getFails ∧
      ctx1.putFails = ctx.putFails := by
  unfold Stub.PutState at h
  split at h
  · cases h
  · cases h; exact ⟨rfl, rfl, rfl⟩

theorem GetState_some_fp {ctx : Stub} {k : String} {r : Option Bytes}
    (h : ctx.GetState k = some r) : ctx.state k = r := by
  unfold Stub.GetState at h
  split at h
  · cases h
  · cases h; rfl

@[simp] theorem reliable_state_fp (s : Store) : (reliable s).state = s := rfl

@[simp] theorem GetState_reliable_fp (s : Store) (k : String) :
    (reliable s).GetState k = some (s k) := rfl

@[simp] theorem PutState_reliable_fp (s : Store) (k : String) (v : Bytes) :
    (reliable s).PutState k v = some (reliable (s.put k v)) := rfl

theorem GetUser_ok_fp {ctx : Stub} {k : String} {u : User}
    (h : GetUser ctx k = .ok u) :
    ∃ d, ctx.GetState k = some (some d) ∧ d.asUser = some u := by
  unfold GetUser at h
  split at h
  · cases h
  · cases h
  · next d hg =>
    split at h
    · cases h
    · next v hv =>
      cases h
      exact ⟨d, hg, hv⟩

theorem GetUser_reliable_fp {s : Store} {k : String} {u : User}
    (h : GetUser (reliable s) k = .ok u) :
    ∃ d, s k = some d ∧ d.asUser = some u := by
  obtain ⟨d, hg, hu⟩ := GetUser_ok_fp h
  exact ⟨d, GetState_some_fp hg, hu⟩

theorem mapGet_mapSet (m : AllowanceMap) (k : String) (v : F64) (j : String) :
    mapGet (mapSet m k v) j = if j = k then some v else mapGet m j := by
  induction m with
  | nil =>
    by_cases h : j = k
    · simp [mapSet, mapGet, h]
    · have h2 : ¬ k = j := fun e => h e.symm
      simp [mapSet, mapGet, h, h2]
  | cons p rest ih =>
    obtain ⟨i, w⟩ := p
    by_cases hik : i = k
    · by_cases h : j = k
      · simp [mapSet, mapGet, hik, h]
      · have h2 : ¬ k = j := fun e => h e.symm
        simp [mapSet, mapGet, hik, h, h2]
    · by_cases h : j = k
      · subst h
        simpa [mapSet, mapGet, hik] using ih
      · simp [mapSet, mapGet, hik, h, ih]

theorem mapLookup_some (m : AllowanceMap) (j : String) :
    mapLookup (some m) j = ((mapGet m j).getD F64.zero, (mapGet m j).isSome) := by
  cases h : mapGet m j <;> simp [mapLookup, h]

theorem mapLookup_mapAdd (m : AllowanceMap) (k : String) (d : F64) (j : String) :
    mapLookup (some (mapAdd m k d)) j
      = if j = k then (F64.add (mapLookup (some m) k).1 d, true) else mapLookup (some m) j := by
  rw [mapLookup_some, mapLookup_some, mapLookup_some, mapAdd, mapGet_mapSet]
  by_cases h : j = k <;> simp [h]

theorem mapLookup_mapSub (m : AllowanceMap) (k : String) (d : F64) (j : String) :
    mapLookup (some (mapSub m k d)) j
      = if j = k then (F64.sub (mapLookup (some m) k).1 d, true) else mapLookup (some m) j := by
  rw [mapLookup_some, mapLookup_some, mapLookup_some, mapSub, mapGet_mapSet]
  by_cases h : j = k <;> simp [h]

theorem marshalUser_inv {u : User} {b : Bytes} (h : marshalUser u = some b) :
    b = ⟨some u, some ⟨"", u.Name, F64.zero, ""⟩⟩ ∧ u.Balance.isFinite = true ∧
      mapFinite u.Allowances = true := by
  unfold marshalUser at h
  split at h
  · next hc =>
    cases h
    simp only [Bool.and_eq_true] at hc
    exact ⟨rfl, hc.1, hc.2⟩
  · cases h

theorem marshalToken_inv {t : Token} {b : Bytes} (h : marshalToken t = some b) :
    b = ⟨some ⟨t.Name, F64.zero, none⟩, some t⟩ ∧ t.TotalSupply.isFinite = true := by
  unfold marshalToken at h
  split at h
  · next hc => cases h; exact ⟨rfl, hc⟩
  · cases h

theorem marshalled_user {u : User} {v : Bytes} (h : marshalUser u = some v) : Marshalled v :=
  Or.inl ⟨u, h⟩

theorem marshalled_token {t : Token} {v : Bytes} (h : marshalToken t = some v) :
    Marshalled v :=
  Or.inr ⟨t, h⟩

/-! ## C2: transfer to oneself -/

/-- Claim C2 as stated fails: account `x` holds 10; `TransferTokens(x, x, 5)`
succeeds and leaves 15 stored for `x`, not 10. -/
theorem transferTokens_self_float_counterexample :
    GetBalance (reliable storeX) "x" = .ok (F64.ofNat 10) ∧
    (TransferTokens (reliable storeX) "x" "x" (F64.ofNat 5)).1 = .ok ∧
    GetBalance (TransferTokens (reliable storeX) "x" "x" (F64.ofNat 5)).2 "x"
      = .ok (F64.ofNat 15) ∧
    GetBalance (TransferTokens (reliable storeX) "x" "x" (F64.ofNat 5)).2 "x"
      ≠ GetBalance (reliable storeX) "x" := by
  decide!

/-- Claim C2, amended: let `x` have a record with balance `b` and finite
allowances, and let `b < amount` be false.  When the `float64` results
`b - amount` and `b + amount` are both finite, `TransferTokens(x, x, amount)`
succeeds and leaves the `float64` sum `b + amount` stored for `x`: the
recipient copy, computed from the balance read before the debit, is written
last under the same key.  When `b - amount` is not finite the call returns the
encode error of the sender record, when only `b + amount` is not finite that of
the receiver record, and the stub is left as it was. -/
theorem transferTokens_self_float (s : Store) (x : String) (amount : F64)
    (name : String) (b : F64) (m : Option AllowanceMap)
    (hrec : GetUser (reliable s) x = .ok ⟨name, b, m⟩)
    (hamt : F64.lt b amount = false)
    (hmap : mapFinite m = true) :
    ((F64.sub b amount).isFinite = true → (F64.add b amount).isFinite = true →
      (TransferTokens (reliable s) x x amount).1 = .ok ∧
      GetBalance (TransferTokens (reliable s) x x amount).2 x = .ok (F64.add b amount)) ∧
    ((F64.sub b amount).isFinite = false →
      TransferTokens (reliable s) x x amount = (.error .marshalSenderData, reliable s)) ∧
    ((F64.sub b amount).isFinite = true → (F64.add b amount).isFinite = false →
      TransferTokens (reliable s) x x amount = (.error .marshalReceiverData, reliable s)) := by
  obtain ⟨d, hk, hu⟩ := GetUser_reliable_fp hrec
  refine ⟨fun h1 h2 => ?_, fun h1 => ?_, fun h1 h2 => ?_⟩
  · simp [TransferTokens, hk, unmarshalUser, hu, hamt, receiverAccount, marshalUser, h1, h2, hmap,
      GetBalance, put_apply_fp]
  · simp [TransferTokens, hk, unmarshalUser, hu, hamt, receiverAccount, marshalUser, h1]
  · simp [TransferTokens, hk, unmarshalUser, hu, hamt, receiverAccount, marshalUser, h1, h2, hmap]

/-- Claim C2, amended, at two concrete inputs: `x` holds `1e16` and sends 1 to
itself, which succeeds and stores the `float64` sum; `x` holds `1e308` and sends
`1e308` to itself, which returns the encode error of the receiver record. -/
theorem transferTokens_self_float_witness :
    ((TransferTokens (reliable storeBigX) "x" "x" (F64.ofNat 1)).1 = .ok ∧
      GetBalance (TransferTokens (reliable storeBigX) "x" "x" (F64.ofNat 1)).2 "x"
        = .ok (F64.add (F64.ofNat (10 ^ 16)) (F64.ofNat 1))) ∧
    TransferTokens (reliable storeHugeX) "x" "x" (F64.ofNat (10 ^ 308))
      = (.error .marshalReceiverData, reliable storeHugeX) :=
  ⟨(transferTokens_self_float storeBigX "x" (F64.ofNat 1) "x" (F64.ofNat (10 ^ 16)) (some [])
      (by decide!) (by decide!) (by decide!)).1 (by decide!) (by decide!),
    (transferTokens_self_float storeHugeX "x" (F64.ofNat (10 ^ 308)) "x" (F64.ofNat (10 ^ 308))
      (some []) (by decide!) (by decide!) (by decide!)).2.2 (by decide!) (by decide!)⟩

/-! ## C5: what a first initialisation writes -/

/-- Claim C5 as stated fails.  With `admin = "TOKEN"` the admin account is
written under the metadata key after the metadata, so the record at `TOKEN`
decodes to a `Token` with empty symbol and admin and total supply 0.  With a
supply that is a NaN or an infinity the call does not succeed: it returns the
encode error of line 72 and writes nothing. -/
theorem initLedger_float_counterexample :
    emptyStore tokenKey = none ∧
    (InitLedger (reliable emptyStore) "TOK" "Tok" (F64.ofNat 1000) "TOKEN").1 = .ok ∧
    unmarshalToken
        ((InitLedger (reliable emptyStore) "TOK" "Tok" (F64.ofNat 1000) "TOKEN").2.state tokenKey)
      = some ⟨"", "TOKEN", F64.zero, ""⟩ ∧
    unmarshalToken
        ((InitLedger (reliable emptyStore) "TOK" "Tok" (F64.ofNat 1000) "TOKEN").2.state tokenKey)
      ≠ some ⟨"TOK", "Tok", F64.ofNat 1000, "TOKEN"⟩ ∧
    InitLedger (reliable emptyStore) "TOK" "Tok" .nan "admin1"
      = (.error .marshalToken, reliable emptyStore) ∧
    InitLedger (reliable emptyStore) "TOK" "Tok" .posInf "admin1"
      = (.error .marshalToken, reliable emptyStore) := by
  refine ⟨rfl, by decide!, by decide!, by decide!, rfl, rfl⟩

/-- Claim C5, amended: on a store with no record at `tokenKey`, and for an
admin identity other than `tokenKey`, `InitLedger` with a finite supply
succeeds, the record at `tokenKey` decodes to the metadata given, and
`GetUser(admin)` returns the account with name `admin`, balance
`initialSupply` and an empty, non-nil allowance map; with a supply that is not
finite it returns the encode error and leaves the stub as it was. -/
theorem initLedger_float (s : Store) (symbol name : String) (initialSupply : F64)
    (admin : String)
    (hfree : s tokenKey = none) (hadm : admin ≠ tokenKey) :
    (initialSupply.isFinite = true →
      (InitLedger (reliable s) symbol name initialSupply admin).1 = .ok ∧
      unmarshalToken ((InitLedger (reliable s) symbol name initialSupply admin).2.state tokenKey)
        = some ⟨symbol, name, initialSupply, admin⟩ ∧
      GetUser (InitLedger (reliable s) symbol name initialSupply admin).2 admin
        = .ok ⟨admin, initialSupply, some []⟩) ∧
    (initialSupply.isFinite = false →
      InitLedger (reliable s) symbol name initialSupply admin
        = (.error .marshalToken, reliable s)) := by
  have hadm2 : tokenKey ≠ admin := fun h => hadm h.symm
  refine ⟨fun hfin => ?_, fun hfin => ?_⟩
  · simp [InitLedger, hfree, marshalToken, marshalUser, hfin, mapFinite, put_apply_fp, hadm2,
      unmarshalToken, GetUser, unmarshalUser]
  · simp [InitLedger, hfree, marshalToken, hfin]

/-- Claim C5, amended, at a concrete input: the empty store, supply 1000 and
admin `admin1`. -/
theorem initLedger_float_witness :
    (InitLedger (reliable emptyStore) "TOK" "Tok" (F64.ofNat 1000) "admin1").1 = .ok ∧
    unmarshalToken
        ((InitLedger (reliable emptyStore) "TOK" "Tok" (F64.ofNat 1000) "admin1").2.state tokenKey)
      = some ⟨"TOK", "Tok", F64.ofNat 1000, "admin1"⟩ ∧
    GetUser (InitLedger (reliable emptyStore) "TOK" "Tok" (F64.ofNat 1000) "admin1").2 "admin1"
      = .ok ⟨"admin1", F64.ofNat 1000, some []⟩ :=
  (initLedger_float emptyStore "TOK" "Tok" (F64.ofNat 1000) "admin1" rfl (by decide)).1
    (by decide!)

/-! ## C6: minting -/

/-- Claim C6 as stated fails.  When the recorded admin is the identity `TOKEN`,
`MintTokens` succeeds but writes the admin account over the metadata, so the
total supply read back is 0.  On a supply and admin balance of `1e16` a mint of
1 succeeds and leaves both at `1e16`: neither grew by the amount.  On a supply
of `1e308` a mint of `1e308` by the admin does not succeed: the sum is `+Inf`
and the call returns the encode error of line 113. -/
theorem mintTokens_float_counterexample :
    unmarshalToken (storeAdminIsKey tokenKey) = some ⟨"TOK", "Tok", F64.ofNat 100, "TOKEN"⟩ ∧
    (MintTokens (reliable storeAdminIsKey) "TOKEN" (F64.ofNat 50)).1 = .ok ∧
    totalSupplyOf (MintTokens (reliable storeAdminIsKey) "TOKEN" (F64.ofNat 50)).2
      = some F64.zero ∧
    totalSupplyOf (reliable storeBigInit) = some (F64.ofNat (10 ^ 16)) ∧
    GetBalance (reliable storeBigInit) "admin1" = .ok (F64.ofNat (10 ^ 16)) ∧
    (MintTokens (reliable storeBigInit) "admin1" (F64.ofNat 1)).1 = .ok ∧
    totalSupplyOf (MintTokens (reliable storeBigInit) "admin1" (F64.ofNat 1)).2
      = some (F64.ofNat (10 ^ 16)) ∧
    GetBalance (MintTokens (reliable storeBigInit) "admin1" (F64.ofNat 1)).2 "admin1"
      = .ok (F64.ofNat (10 ^ 16)) ∧
    totalSupplyOf (reliable storeHugeInit) = some (F64.ofNat (10 ^ 308)) ∧
    (MintTokens (reliable storeHugeInit) "admin1" (F64.ofNat (10 ^ 308))).1
      = .error .marshalTokenData := by
  decide!

/-- Claim C6, amended: let the metadata at `tokenKey` record the supply
`supply` and an admin other than `tokenKey` whose account is absent or decodes
with finite allowances.  When the `float64` sums `supply + amount` and
`balance + amount` (balance 0 when the account is absent) are finite,
`MintTokens` by the admin succeeds and stores these two sums as total supply
and admin balance.  When `supply + amount` is not finite the call returns the
encode error and leaves the stub as it was; when only `balance + amount` is not
finite it returns the encode error of the admin account after the metadata has
been written with the new supply.  `MintTokens` by any other identity returns
the only-admin error and leaves the stub unchanged. -/
theorem mintTokens_float (s : Store) (d : Bytes) (symbol name : String) (supply : F64)
    (admin : String) (amount : F64)
    (hmeta : s tokenKey = some d) (htok : d.asToken = some ⟨symbol, name, supply, admin⟩)
    (hadm : admin ≠ tokenKey)
    (hacct : s admin = none ∨
      ∃ u, GetUser (reliable s) admin = .ok u ∧ mapFinite u.Allowances = true) :
    ((F64.add supply amount).isFinite = true →
      (F64.add (balanceOf (reliable s) admin) amount).isFinite = true →
      (MintTokens (reliable s) admin amount).1 = .ok ∧
      totalSupplyOf (MintTokens (reliable s) admin amount).2 = some (F64.add supply amount) ∧
      GetBalance (MintTokens (reliable s) admin amount).2 admin
        = .ok (F64.add (balanceOf (reliable s) admin) amount)) ∧
    ((F64.add supply amount).isFinite = false →
      MintTokens (reliable s) admin amount = (.error .marshalTokenData, reliable s)) ∧
    ((F64.add supply amount).isFinite = true →
      (F64.add (balanceOf (reliable s) admin) amount).isFinite = false →
      (MintTokens (reliable s) admin amount).1 = .error .marshalAdminAccount ∧
      totalSupplyOf (MintTokens (reliable s) admin amount).2 = some (F64.add supply amount)) ∧
    ∀ b, b ≠ admin →
      MintTokens (reliable s) b amount = (.error .onlyAdminCanMint, reliable s) := by
  have hadm2 : tokenKey ≠ admin := fun h => hadm h.symm
  refine ⟨fun h1 h2 => ?_, fun h1 => ?_, fun h1 h2 => ?_, fun b hb => ?_⟩
  · rcases hacct with hnone | ⟨u, hu, hm⟩
    · have hb : balanceOf (reliable s) admin = F64.zero := by
        simp [balanceOf, GetBalance, hnone]
      rw [hb] at h2 ⊢
      simp [MintTokens, hmeta, unmarshalToken, htok, marshalToken, h1, mintAdminAccount,
        put_apply_fp, hadm, hadm2, hnone, marshalUser, h2, mapFinite, totalSupplyOf, GetBalance,
        unmarshalUser]
    · obtain ⟨e, hk, hv⟩ := GetUser_reliable_fp hu
      have hb : balanceOf (reliable s) admin = u.Balance := by
        simp [balanceOf, GetBalance, hk, unmarshalUser, hv]
      rw [hb] at h2 ⊢
      simp [MintTokens, hmeta, unmarshalToken, htok, marshalToken, h1, mintAdminAccount,
        put_apply_fp, hadm, hadm2, hk, hv, marshalUser, h2, hm, totalSupplyOf, GetBalance,
        unmarshalUser]
  · simp [MintTokens, hmeta, unmarshalToken, htok, marshalToken, h1]
  · rcases hacct with hnone | ⟨u, hu, hm⟩
    · have hb : balanceOf (reliable s) admin = F64.zero := by
        simp [balanceOf, GetBalance, hnone]
      rw [hb] at h2
      simp [MintTokens, hmeta, unmarshalToken, htok, marshalToken, h1, mintAdminAccount,
        put_apply_fp, hadm, hadm2, hnone, marshalUser, h2, mapFinite, totalSupplyOf]
    · obtain ⟨e, hk, hv⟩ := GetUser_reliable_fp hu
      have hb : balanceOf (reliable s) admin = u.Balance := by
        simp [balanceOf, GetBalance, hk, unmarshalUser, hv]
      rw [hb] at h2
      simp [MintTokens, hmeta, unmarshalToken, htok, marshalToken, h1, mintAdminAccount,
        put_apply_fp, hadm, hadm2, hk, hv, marshalUser, h2, hm, totalSupplyOf,
        unmarshalUser]
  · have hb2 : ¬ admin = b := fun h => hb h.symm
    simp [MintTokens, hmeta, unmarshalToken, htok, hb2]

/-- Claim C6, amended, at a concrete input: `admin1` mints 50 on top of a
supply of 100 and a balance of 100. -/
theorem mintTokens_float_witness :
    (MintTokens (reliable storeInit) "admin1" (F64.ofNat 50)).1 = .ok ∧
    totalSupplyOf (MintTokens (reliable storeInit) "admin1" (F64.ofNat 50)).2
      = some (F64.add (F64.ofNat 100) (F64.ofNat 50)) ∧
    GetBalance (MintTokens (reliable storeInit) "admin1" (F64.ofNat 50)).2 "admin1"
      = .ok (F64.add (balanceOf (reliable storeInit) "admin1") (F64.ofNat 50)) :=
  (mintTokens_float storeInit ⟨some ⟨"Tok", F64.zero, none⟩,
        some ⟨"TOK", "Tok", F64.ofNat 100, "admin1"⟩⟩ "TOK" "Tok" (F64.ofNat 100) "admin1"
      (F64.ofNat 50) (by decide!) rfl (by decide)
      (Or.inr ⟨⟨"admin1", F64.ofNat 100, some []⟩, by decide!, by decide!⟩)).1
    (by decide!) (by decide!)

/-! ## C7: burning -/

/-- Claim C7 as stated fails.  The key `TOKEN` holds a record that decodes as
a `User` with balance 0, so `BurnTokens("TOKEN", 0)` succeeds and writes a
`User` record over the metadata; the total supply read back drops from 100 to
0.  On a balance of `1e16` a burn of 1 succeeds and leaves `1e16`: the balance
did not decrease by the amount.  On a balance of `1e308` a burn of `-1.7e308`,
an amount below the balance, does not succeed: the difference is `+Inf` and the
call returns the encode error of line 302. -/
theorem burnTokens_float_counterexample :
    GetBalance (reliable storeInit) "TOKEN" = .ok F64.zero ∧
    (BurnTokens (reliable storeInit) "TOKEN" F64.zero).1 = .ok ∧
    totalSupplyOf (reliable storeInit) = some (F64.ofNat 100) ∧
    totalSupplyOf (BurnTokens (reliable storeInit) "TOKEN" F64.zero).2 = some F64.zero ∧
    GetBalance (reliable storeBigX) "x" = .ok (F64.ofNat (10 ^ 16)) ∧
    (BurnTokens (reliable storeBigX) "x" (F64.ofNat 1)).1 = .ok ∧
    GetBalance (BurnTokens (reliable storeBigX) "x" (F64.ofNat 1)).2 "x"
      = .ok (F64.ofNat (10 ^ 16)) ∧
    GetBalance (reliable storeHugeX) "x" = .ok (F64.ofNat (10 ^ 308)) ∧
    F64.le (F64.neg (F64.ofNat (17 * 10 ^ 307))) (F64.ofNat (10 ^ 308)) = true ∧
    (BurnTokens (reliable storeHugeX) "x" (F64.neg (F64.ofNat (17 * 10 ^ 307)))).1
      = .error .marshalUserData := by
  decide!

/-- Claim C7, amended: for a user whose record has balance `b` and finite
allowances, burning an amount with `b < amount` returns the
insufficient-balance error and leaves the stub unchanged.  When `b < amount` is
false and the `float64` difference `b - amount` is finite the call succeeds and
leaves that difference as balance, and the total supply is unchanged when
`user` is not `tokenKey`; when the difference is not finite the call returns
the encode error and leaves the stub unchanged. -/
theorem burnTokens_float (s : Store) (user : String) (amount : F64)
    (name : String) (b : F64) (m : Option AllowanceMap)
    (hrec : GetUser (reliable s) user = .ok ⟨name, b, m⟩)
    (hmap : mapFinite m = true) :
    (F64.lt b amount = true →
      BurnTokens (reliable s) user amount = (.error .insufficientBalanceToBurn, reliable s)) ∧
    (F64.lt b amount = false → (F64.sub b amount).isFinite = true →
      (BurnTokens (reliable s) user amount).1 = .ok ∧
      GetBalance (BurnTokens (reliable s) user amount).2 user = .ok (F64.sub b amount) ∧
      (user ≠ tokenKey →
        totalSupplyOf (BurnTokens (reliable s) user amount).2 = totalSupplyOf (reliable s))) ∧
    (F64.lt b amount = false → (F64.sub b amount).isFinite = false →
      BurnTokens (reliable s) user amount = (.error .marshalUserData, reliable s)) := by
  obtain ⟨d, hk, hu⟩ := GetUser_reliable_fp hrec
  refine ⟨fun h1 => ?_, fun h1 h2 => ⟨?_, ?_, fun hne => ?_⟩, fun h1 h2 => ?_⟩
  · simp [BurnTokens, hk, unmarshalUser, hu, h1]
  · simp [BurnTokens, hk, unmarshalUser, hu, h1, marshalUser, h2, hmap]
  · simp [BurnTokens, hk, unmarshalUser, hu, h1, marshalUser, h2, hmap, GetBalance, put_apply_fp]
  · have hne2 : tokenKey ≠ user := fun h => hne h.symm
    simp [BurnTokens, hk, unmarshalUser, hu, h1, marshalUser, h2, hmap, totalSupplyOf,
      put_apply_fp, hne2]
  · simp [BurnTokens, hk, unmarshalUser, hu, h1, marshalUser, h2]

/-- Claim C7, amended, at two concrete inputs: `x` holds 10 and burns 4, which
succeeds; `x` holds 10 and burns 11, which returns the insufficient-balance
error. -/
theorem burnTokens_float_witness :
    ((BurnTokens (reliable storeX) "x" (F64.ofNat 4)).1 = .ok ∧
      GetBalance (BurnTokens (reliable storeX) "x" (F64.ofNat 4)).2 "x"
        = .ok (F64.sub (F64.ofNat 10) (F64.ofNat 4)) ∧
      ("x" ≠ tokenKey →
        totalSupplyOf (BurnTokens (reliable storeX) "x" (F64.ofNat 4)).2
          = totalSupplyOf (reliable storeX))) ∧
    BurnTokens (reliable storeX) "x" (F64.ofNat 11)
      = (.error .insufficientBalanceToBurn, reliable storeX) :=
  ⟨(burnTokens_float storeX "x" (F64.ofNat 4) "x" (F64.ofNat 10) (some [])
      (by decide!) (by decide!)).2.1 (by decide!) (by decide!),
    (burnTokens_float storeX "x" (F64.ofNat 11) "x" (F64.ofNat 10) (some [])
      (by decide!) (by decide!)).1 (by decide!)⟩

/-! ## C8: repeated approvals -/

theorem ApproveSpender_ok_fp {s : Store} {owner spender : String} {amount : F64}
    (hok : (ApproveSpender (reliable s) owner spender amount).1 = .ok) :
    ∃ d o sp m, s owner = some d ∧ d.asUser = some o ∧
      unmarshalUser (s spender) = some sp ∧ o.Allowances = some m ∧
      (ApproveSpender (reliable s) owner spender amount).2 =
        reliable ((s.put owner
            ⟨some ⟨o.Name, o.Balance, some (mapAdd m spender amount)⟩,
              some ⟨"", o.Name, F64.zero, ""⟩⟩).put spender
          ⟨some ⟨sp.Name, F64.add sp.Balance amount, sp.Allowances⟩,
            some ⟨"", sp.Name, F64.zero, ""⟩⟩) := by
  cases hd : s owner with
  | none => simp [ApproveSpender, hd] at hok
  | some d =>
  cases ho : unmarshalUser (some d) with
  | none => simp [ApproveSpender, hd, ho] at hok
  | some o =>
  cases hlt : F64.lt o.Balance amount with
  | true => simp [ApproveSpender, hd, ho, hlt] at hok
  | false =>
  cases hsp : unmarshalUser (s spender) with
  | none => simp [ApproveSpender, hd, ho, hlt, hsp] at hok
  | some sp =>
  cases hm : o.Allowances with
  | none => simp [ApproveSpender, hd, ho, hlt, hsp, hm] at hok
  | some m =>
  cases hb1 : marshalUser ⟨o.Name, o.Balance, some (mapAdd m spender amount)⟩ with
  | none => simp [ApproveSpender, hd, ho, hlt, hsp, hm, hb1] at hok
  | some b1 =>
  cases hb2 : marshalUser ⟨sp.Name, F64.add sp.Balance amount, sp.Allowances⟩ with
  | none => simp [ApproveSpender, hd, ho, hlt, hsp, hm, hb1, hb2] at hok
  | some b2 =>
  obtain ⟨rfl, -, -⟩ := marshalUser_inv hb1
  obtain ⟨rfl, -, -⟩ := marshalUser_inv hb2
  refine ⟨d, o, sp, m, rfl, ho, rfl, hm, ?_⟩
  simp [ApproveSpender, hd, ho, hlt, hsp, hm, hb1, hb2]

/-- Claim C8 as stated fails.  With `owner = spender` both approvals succeed,
but each call writes the spender copy of the record (old allowance map) after
the owner copy, so `allowances[x]` of `x` stays without an entry instead of
holding 8.  With distinct identities and an entry of `1e16`, two successful
approvals of 1 leave the entry at `1e16`, not at `1e16 + 2` (which is another
`float64`): each `+=` rounds back to `1e16`. -/
theorem approveSpender_twice_float_counterexample :
    (ApproveSpender (reliable storeX) "x" "x" (F64.ofNat 5)).1 = .ok ∧
    (ApproveSpender (ApproveSpender (reliable storeX) "x" "x" (F64.ofNat 5)).2
      "x" "x" (F64.ofNat 3)).1 = .ok ∧
    allowanceOf (reliable storeX) "x" "x" = (F64.zero, false) ∧
    allowanceOf (ApproveSpender (ApproveSpender (reliable storeX) "x" "x" (F64.ofNat 5)).2
      "x" "x" (F64.ofNat 3)).2 "x" "x" = (F64.zero, false) ∧
    (ApproveSpender (reliable storeBigOS) "o" "s" (F64.ofNat 1)).1 = .ok ∧
    (ApproveSpender (ApproveSpender (reliable storeBigOS) "o" "s" (F64.ofNat 1)).2
      "o" "s" (F64.ofNat 1)).1 = .ok ∧
    allowanceOf (reliable storeBigOS) "o" "s" = (F64.ofNat (10 ^ 16), true) ∧
    allowanceOf (ApproveSpender (ApproveSpender (reliable storeBigOS) "o" "s" (F64.ofNat 1)).2
      "o" "s" (F64.ofNat 1)).2 "o" "s" = (F64.ofNat (10 ^ 16), true) ∧
    F64.ofNat (10 ^ 16) ≠ F64.ofNat (10 ^ 16 + 2) := by
  decide!

/-- Claim C8, amended: for `owner ≠ spender`, when `ApproveSpender(owner,
spender, amount)` and then `ApproveSpender(owner, spender, amount2)` both
succeed, the owner's stored `allowances[spender]` is present and is the result
of the two `float64` additions in turn: its value before the first call (0
without an entry) plus `amount`, plus `amount2`. -/
theorem approveSpender_twice_float (s : Store) (owner spender : String) (amount amount2 : F64)
    (hne : owner ≠ spender)
    (h1 : (ApproveSpender (reliable s) owner spender amount).1 = .ok)
    (h2 : (ApproveSpender (ApproveSpender (reliable s) owner spender amount).2
            owner spender amount2).1 = .ok) :
    allowanceOf (ApproveSpender (ApproveSpender (reliable s) owner spender amount).2
        owner spender amount2).2 owner spender
      = (F64.add (F64.add (allowanceOf (reliable s) owner spender).1 amount) amount2, true) := by
  obtain ⟨d, o, sp, m, hk, hu, hsp, hm, hrun⟩ := ApproveSpender_ok_fp h1
  rw [hrun] at h2 ⊢
  obtain ⟨d2, o2, sp2, m2, hk2, hu2, hsp2, hm2, hrun2⟩ := ApproveSpender_ok_fp h2
  rw [hrun2]
  simp [put_apply_fp, hne] at hk2
  subst hk2
  simp at hu2
  subst hu2
  simp at hm2
  subst hm2
  simp [allowanceOf, GetUser, put_apply_fp, unmarshalUser, hne, hk, hu, hm, mapLookup_mapAdd]

/-- Claim C8, amended, at a concrete input: `o` (balance 10) approves 5 and
then 3 for `s`. -/
theorem approveSpender_twice_float_witness :
    allowanceOf (ApproveSpender (ApproveSpender (reliable storeOS) "o" "s" (F64.ofNat 5)).2
        "o" "s" (F64.ofNat 3)).2 "o" "s"
      = (F64.add (F64.add (allowanceOf (reliable storeOS) "o" "s").1 (F64.ofNat 5))
          (F64.ofNat 3), true) :=
  approveSpender_twice_float storeOS "o" "s" (F64.ofNat 5) (F64.ofNat 3) (by decide)
    (by decide!) (by decide!)

/-! ## C10: frame of a successful approval -/

/-- Claim C10 as stated fails: `o` holds 10 and `s` holds `1e16`;
`ApproveSpender(o, s, 1)` succeeds and the balance stored for `s` is still
`1e16`, so it did not increase by the amount. -/
theorem approveSpender_frame_float_counterexample :
    GetBalance (reliable storeBigOS) "o" = .ok (F64.ofNat 10) ∧
    GetBalance (reliable storeBigOS) "s" = .ok (F64.ofNat (10 ^ 16)) ∧
    F64.le (F64.ofNat 1) (F64.ofNat 10) = true ∧
    (ApproveSpender (reliable storeBigOS) "o" "s" (F64.ofNat 1)).1 = .ok ∧
    GetBalance (ApproveSpender (reliable storeBigOS) "o" "s" (F64.ofNat 1)).2 "s"
      = .ok (F64.ofNat (10 ^ 16)) ∧
    GetBalance (ApproveSpender (reliable storeBigOS) "o" "s" (F64.ofNat 1)).2 "s"
      = GetBalance (reliable storeBigOS) "s" := by
  decide!

/-- Claim C10, amended: for distinct `owner` and `spender` that both have
records, a successful `ApproveSpender` leaves as the spender's balance the
`float64` sum of its prior balance and `amount`, leaves the owner's balance as
it was, and leaves every allowance entry of the owner other than
`allowances[spender]` as it was. -/
theorem approveSpender_frame_float (s : Store) (owner spender : String) (amount : F64)
    (o sp : User)
    (hne : owner ≠ spender)
    (ho : GetUser (reliable s) owner = .ok o) (hs : GetUser (reliable s) spender = .ok sp)
    (hok : (ApproveSpender (reliable s) owner spender amount).1 = .ok) :
    GetBalance (ApproveSpender (reliable s) owner spender amount).2 spender
      = .ok (F64.add (balanceOf (reliable s) spender) amount) ∧
    GetBalance (ApproveSpender (reliable s) owner spender amount).2 owner
      = GetBalance (reliable s) owner ∧
    ∀ k, k ≠ spender →
      allowanceOf (ApproveSpender (reliable s) owner spender amount).2 owner k
        = allowanceOf (reliable s) owner k := by
  obtain ⟨d, hk, hu⟩ := GetUser_reliable_fp ho
  obtain ⟨e, hk2, hv⟩ := GetUser_reliable_fp hs
  obtain ⟨d', o', sp', m, hk', hu', hsp', hm, hrun⟩ := ApproveSpender_ok_fp hok
  rw [hk] at hk'
  cases hk'
  rw [hu] at hu'
  cases hu'
  simp [hk2, unmarshalUser, hv] at hsp'
  subst hsp'
  rw [hrun]
  refine ⟨?_, ?_, ?_⟩
  · simp [GetBalance, balanceOf, put_apply_fp, unmarshalUser, hk2, hv]
  · simp [GetBalance, put_apply_fp, unmarshalUser, hne, hk, hu]
  · intro k hkne
    simp [allowanceOf, GetUser, put_apply_fp, unmarshalUser, hne, hk, hu, hm,
      mapLookup_mapAdd, hkne]

/-- Claim C10, amended, at a concrete input: `o` (balance 10) approves 5 for
`s` (balance 1). -/
theorem approveSpender_frame_float_witness :
    GetBalance (ApproveSpender (reliable storeOS) "o" "s" (F64.ofNat 5)).2 "s"
      = .ok (F64.add (balanceOf (reliable storeOS) "s") (F64.ofNat 5)) ∧
    GetBalance (ApproveSpender (reliable storeOS) "o" "s" (F64.ofNat 5)).2 "o"
      = GetBalance (reliable storeOS) "o" ∧
    ∀ k, k ≠ "s" →
      allowanceOf (ApproveSpender (reliable storeOS) "o" "s" (F64.ofNat 5)).2 "o" k
        = allowanceOf (reliable storeOS) "o" k :=
  approveSpender_frame_float storeOS "o" "s" (F64.ofNat 5)
    ⟨"o", F64.ofNat 10, some []⟩ ⟨"s", F64.ofNat 1, some []⟩
    (by decide) (by decide!) (by decide!) (by decide!)

/-! ## C11: allowance bookkeeping of a delegated transfer -/

theorem TransferFrom_ok_fp {s : Store} {owner spender recipient : String} {amount : F64}
    (hok : (TransferFromApprovedSpenders (reliable s) owner spender recipient amount).1 = .ok) :
    ∃ d o sp m r, s owner = some d ∧ d.asUser = some o ∧
      unmarshalUser (s spender) = some sp ∧ o.Allowances = some m ∧
      (mapLookup (some m) spender).2 = true ∧
      receiverAccount (some (s recipient)) = some r ∧
      (TransferFromApprovedSpenders (reliable s) owner spender recipient amount).2 =
        reliable (((s.put owner
            ⟨some ⟨o.Name, o.Balance,
                some (mapAdd (mapSub m spender amount) recipient amount)⟩,
              some ⟨"", o.Name, F64.zero, ""⟩⟩).put recipient
          ⟨some ⟨r.Name, F64.add r.Balance amount, r.Allowances⟩,
            some ⟨"", r.Name, F64.zero, ""⟩⟩).put spender
          ⟨some ⟨sp.Name, F64.sub sp.Balance amount, sp.Allowances⟩,
            some ⟨"", sp.Name, F64.zero, ""⟩⟩) := by
  cases hd : s owner with
  | none => simp [TransferFromApprovedSpenders, hd] at hok
  | some d =>
  cases ho : unmarshalUser (some d) with
  | none => simp [TransferFromApprovedSpenders, hd, ho] at hok
  | some o =>
  cases hsp : unmarshalUser (s spender) with
  | none => simp [TransferFromApprovedSpenders, hd, ho, hsp] at hok
  | some sp =>
  cases hm : o.Allowances with
  | none => simp [TransferFromApprovedSpenders, hd, ho, hsp, hm, mapLookup] at hok
  | some m =>
  cases hall : (!(mapLookup (some m) spender).2
      || F64.lt (mapLookup (some m) spender).1 amount) with
  | true => simp [TransferFromApprovedSpenders, hd, ho, hsp, hm, hall] at hok
  | false =>
  cases hlt : F64.lt o.Balance amount with
  | true => simp [TransferFromApprovedSpenders, hd, ho, hsp, hm, hall, hlt] at hok
  | false =>
  cases hr : receiverAccount (some (s recipient)) with
  | none => simp [TransferFromApprovedSpenders, hd, ho, hsp, hm, hall, hlt, hr] at hok
  | some r =>
  cases hb1 : marshalUser
      ⟨o.Name, o.Balance, some (mapAdd (mapSub m spender amount) recipient amount)⟩ with
  | none => simp [TransferFromApprovedSpenders, hd, ho, hsp, hm, hall, hlt, hr, hb1] at hok
  | some b1 =>
  cases hb2 : marshalUser ⟨r.Name, F64.add r.Balance amount, r.Allowances⟩ with
  | none =>
    simp [TransferFromApprovedSpenders, hd, ho, hsp, hm, hall, hlt, hr, hb1, hb2] at hok
  | some b2 =>
  cases hb3 : marshalUser ⟨sp.Name, F64.sub sp.Balance amount, sp.Allowances⟩ with
  | none =>
    simp [TransferFromApprovedSpenders, hd, ho, hsp, hm, hall, hlt, hr, hb1, hb2, hb3] at hok
  | some b3 =>
  obtain ⟨rfl, -, -⟩ := marshalUser_inv hb1
  obtain ⟨rfl, -, -⟩ := marshalUser_inv hb2
  obtain ⟨rfl, -, -⟩ := marshalUser_inv hb3
  have hl : (mapLookup (some m) spender).2 = true := by
    simp only [Bool.or_eq_false_iff, Bool.not_eq_false'] at hall
    exact hall.1
  refine ⟨d, o, sp, m, r, rfl, ho, rfl, hm, hl, rfl, ?_⟩
  simp [TransferFromApprovedSpenders, hd, ho, hsp, hm, hall, hlt, hr, hb1, hb2, hb3]

/-- Claim C11 as stated fails.  With `recipient = spender` the entry is
decremented and incremented again and stays at 5, where the claim has `5 - 5`;
with `recipient = owner` or `spender = owner` the owner's record with the new
map is overwritten by the stale copy written after it.  With three distinct
identities and an entry of `1e16` for the recipient, a successful transfer of 1
leaves that entry at `1e16`: it did not grow by the amount. -/
theorem transferFrom_allowance_float_counterexample :
    (TransferFromApprovedSpenders (reliable storeApproved) "o" "s" "s" (F64.ofNat 5)).1 = .ok ∧
    allowanceOf (reliable storeApproved) "o" "s" = (F64.ofNat 5, true) ∧
    allowanceOf
        (TransferFromApprovedSpenders (reliable storeApproved) "o" "s" "s" (F64.ofNat 5)).2
        "o" "s" = (F64.ofNat 5, true) ∧
    F64.sub (F64.ofNat 5) (F64.ofNat 5) = F64.zero ∧
    (TransferFromApprovedSpenders (reliable storeApproved) "o" "s" "o" (F64.ofNat 5)).1 = .ok ∧
    allowanceOf
        (TransferFromApprovedSpenders (reliable storeApproved) "o" "s" "o" (F64.ofNat 5)).2
        "o" "s" = (F64.ofNat 5, true) ∧
    (TransferFromApprovedSpenders (reliable storeSelfApproved) "o" "o" "r" (F64.ofNat 5)).1
      = .ok ∧
    allowanceOf (reliable storeSelfApproved) "o" "o" = (F64.ofNat 5, true) ∧
    allowanceOf
        (TransferFromApprovedSpenders (reliable storeSelfApproved) "o" "o" "r" (F64.ofNat 5)).2
        "o" "o" = (F64.ofNat 5, true) ∧
    (TransferFromApprovedSpenders (reliable storeBigApproved) "o" "s" "r" (F64.ofNat 1)).1
      = .ok ∧
    allowanceOf (reliable storeBigApproved) "o" "r" = (F64.ofNat (10 ^ 16), true) ∧
    allowanceOf
        (TransferFromApprovedSpenders (reliable storeBigApproved) "o" "s" "r" (F64.ofNat 1)).2
        "o" "r" = (F64.ofNat (10 ^ 16), true) := by
  decide!

/-- Claim C11, amended: for pairwise distinct `owner`, `spender` and
`recipient`, after a successful `TransferFromApprovedSpenders` the owner's
`allowances[spender]` is the `float64` difference of its prior value and
`amount`, and the owner's `allowances[recipient]` is the `float64` sum of its
prior value (0 without an entry) and `amount`. -/
theorem transferFrom_allowance_float (s : Store) (owner spender recipient : String)
    (amount : F64)
    (hos : owner ≠ spender) (hor : owner ≠ recipient) (hsr : spender ≠ recipient)
    (hok : (TransferFromApprovedSpenders (reliable s) owner spender recipient amount).1 = .ok) :
    allowanceOf (TransferFromApprovedSpenders (reliable s) owner spender recipient amount).2
        owner spender
      = (F64.sub (allowanceOf (reliable s) owner spender).1 amount, true) ∧
    allowanceOf (TransferFromApprovedSpenders (reliable s) owner spender recipient amount).2
        owner recipient
      = (F64.add (allowanceOf (reliable s) owner recipient).1 amount, true) := by
  obtain ⟨d, o, sp, m, r, hk, hu, hsp, hm, hl, hr, hrun⟩ := TransferFrom_ok_fp hok
  rw [hrun]
  constructor
  · simp [allowanceOf, GetUser, put_apply_fp, unmarshalUser, hos, hor, hsr, hk, hu, hm,
      mapLookup_mapAdd, mapLookup_mapSub]
  · simp [allowanceOf, GetUser, put_apply_fp, unmarshalUser, hos, hor, hsr, hsr.symm, hk, hu,
      hm, mapLookup_mapAdd, mapLookup_mapSub]

/-- Claim C11, amended, at a concrete input: `o` has granted 5 to `s`, who
moves 5 to `r`. -/
theorem transferFrom_allowance_float_witness :
    allowanceOf
        (TransferFromApprovedSpenders (reliable storeApproved) "o" "s" "r" (F64.ofNat 5)).2
        "o" "s"
      = (F64.sub (allowanceOf (reliable storeApproved) "o" "s").1 (F64.ofNat 5), true) ∧
    allowanceOf
        (TransferFromApprovedSpenders (reliable storeApproved) "o" "s" "r" (F64.ofNat 5)).2
        "o" "r"
      = (F64.add (allowanceOf (reliable storeApproved) "o" "r").1 (F64.ofNat 5), true) :=
  transferFrom_allowance_float storeApproved "o" "s" "r" (F64.ofNat 5)
    (by decide) (by decide) (by decide) (by decide!)

/-! ## What every invocation preserves -/

theorem run_preserves_fp (P : Stub → Prop) (c : Call)
    (hP : ∀ ctx ctx1 k v, ctx.PutState k v = some ctx1 → P ctx → k ∈ c.writeKeys →
      Marshalled v → P ctx1)
    (ctx : Stub) (h : P ctx) : P (c.run ctx).2 := by
  cases c with
  | createuser name =>
    simp only [Call.run]
    unfold Createuser
    iterate 5 (all_goals (first | split | (dsimp only; split) | skip))
    all_goals first
      | exact h
      | exact hP _ _ _ _ (by assumption) h (by simp [Call.writeKeys]) (marshalled_user (by assumption))
  | initLedger symbol name initialSupply admin =>
    simp only [Call.run]
    unfold InitLedger
    iterate 8 (all_goals (first | split | (dsimp only; split) | skip))
    all_goals first
      | exact h
      | exact hP _ _ _ _ (by assumption) h (by simp [Call.writeKeys]) (marshalled_token (by assumption))
      | exact hP _ _ _ _ (by assumption)
          (hP _ _ _ _ (by assumption) h (by simp [Call.writeKeys]) (marshalled_token (by assumption)))
          (by simp [Call.writeKeys]) (marshalled_user (by assumption))
  | mintTokens admin amount =>
    simp only [Call.run]
    unfold MintTokens
    iterate 10 (all_goals (first | split | (dsimp only; split) | skip))
    all_goals first
      | exact h
      | exact hP _ _ _ _ (by assumption) h (by simp [Call.writeKeys]) (marshalled_token (by assumption))
      | exact hP _ _ _ _ (by assumption)
          (hP _ _ _ _ (by assumption) h (by simp [Call.writeKeys]) (marshalled_token (by assumption)))
          (by simp [Call.writeKeys]) (marshalled_user (by assumption))
  | transferTokens src dst amount =>
    simp only [Call.run]
    unfold TransferTokens
    iterate 10 (all_goals (first | split | (dsimp only; split) | skip))
    all_goals first
      | exact h
      | exact hP _ _ _ _ (by assumption) h (by simp [Call.writeKeys]) (marshalled_user (by assumption))
      | exact hP _ _ _ _ (by assumption)
          (hP _ _ _ _ (by assumption) h (by simp [Call.writeKeys]) (marshalled_user (by assumption)))
          (by simp [Call.writeKeys]) (marshalled_user (by assumption))
  | burnTokens user amount =>
    simp only [Call.run]
    unfold BurnTokens
    iterate 8 (all_goals (first | split | (dsimp only; split) | skip))
    all_goals first
      | exact h
      | exact hP _ _ _ _ (by assumption) h (by simp [Call.writeKeys]) (marshalled_user (by assumption))
  | approveSpender owner spender amount =>
    simp only [Call.run]
    unfold ApproveSpender
    iterate 12 (all_goals (first | split | (dsimp only; split) | skip))
    all_goals first
      | exact h
      | exact hP _ _ _ _ (by assumption) h (by simp [Call.writeKeys]) (marshalled_user (by assumption))
      | exact hP _ _ _ _ (by assumption)
          (hP _ _ _ _ (by assumption) h (by simp [Call.writeKeys]) (marshalled_user (by assumption)))
          (by simp [Call.writeKeys]) (marshalled_user (by assumption))
  | transferFrom owner spender recipient amount =>
    simp only [Call.run]
    unfold TransferFromApprovedSpenders
    iterate 15 (all_goals (first | split | (dsimp only; split) | skip))
    all_goals first
      | exact h
      | exact hP _ _ _ _ (by assumption) h (by simp [Call.writeKeys]) (marshalled_user (by assumption))
      | exact hP _ _ _ _ (by assumption)
          (hP _ _ _ _ (by assumption) h (by simp [Call.writeKeys]) (marshalled_user (by assumption)))
          (by simp [Call.writeKeys]) (marshalled_user (by assumption))
      | exact hP _ _ _ _ (by assumption)
          (hP _ _ _ _ (by assumption)
            (hP _ _ _ _ (by assumption) h (by simp [Call.writeKeys]) (marshalled_user (by assumption)))
            (by simp [Call.writeKeys]) (marshalled_user (by assumption)))
          (by simp [Call.writeKeys]) (marshalled_user (by assumption))

theorem run_flags_fp (ctx : Stub) (c : Call) :
    (c.run ctx).2.getFails = ctx.getFails ∧ (c.run ctx).2.putFails = ctx.putFails := by
  refine run_preserves_fp (fun x => x.getFails = ctx.getFails ∧ x.putFails = ctx.putFails) c
    ?_ ctx ⟨rfl, rfl⟩
  intro a b k v hput hab _ _
  obtain ⟨_, hg, hp⟩ := PutState_state_fp hput
  exact ⟨hg.trans hab.1, hp.trans hab.2⟩

theorem AllDecode_put_fp {s : Store} (h : AllDecode s) (k : String) {v : Bytes}
    (hv : Marshalled v) : AllDecode (s.put k v) := by
  intro j d hd
  rw [put_apply_fp] at hd
  split at hd
  · cases hd
    rcases hv with ⟨u, hu⟩ | ⟨t, ht⟩
    · obtain ⟨rfl, -, -⟩ := marshalUser_inv hu
      exact ⟨u, rfl⟩
    · obtain ⟨rfl, -⟩ := marshalToken_inv ht
      exact ⟨⟨t.Name, F64.zero, none⟩, rfl⟩
  · exact h j d hd

theorem run_allDecode_fp (ctx : Stub) (c : Call) (h : AllDecode ctx.state) :
    AllDecode (c.run ctx).2.state := by
  refine run_preserves_fp (fun x => AllDecode x.state) c ?_ ctx h
  intro a b k v hput ha _ hv
  rw [(PutState_state_fp hput).1]
  exact AllDecode_put_fp ha k hv

theorem run_frame_fp (ctx : Stub) (c : Call) (j : String) (hj : j ∉ c.writeKeys) :
    (c.run ctx).2.state j = ctx.state j := by
  refine run_preserves_fp (fun x => x.state j = ctx.state j) c ?_ ctx rfl
  intro a b k v hput ha hk _
  rw [(PutState_state_fp hput).1, put_apply_fp]
  have hne : j ≠ k := fun h => hj (h ▸ hk)
  simp [hne, ha]

theorem Reachable_inv_fp {ctx : Stub} (h : Reachable ctx) :
    (∀ k, ctx.putFails k = false) ∧ AllDecode ctx.state := by
  induction h with
  | init g => exact ⟨fun _ => rfl, fun k d hd => by simp [emptyStore] at hd⟩
  | step c _ ih =>
    refine ⟨fun k => ?_, run_allDecode_fp _ c ih.2⟩
    rw [(run_flags_fp _ c).2]
    exact ih.1 k

/-! ## C13: the total supply -/

theorem MintTokens_meta_fp (ctx : Stub) (admin : String) (amount : F64)
    (hadm : admin ≠ tokenKey) :
    (MintTokens ctx admin amount).2.state tokenKey = ctx.state tokenKey ∨
    ∃ t, unmarshalToken (ctx.state tokenKey) = some t ∧
      (F64.add t.TotalSupply amount).isFinite = true ∧
      unmarshalToken ((MintTokens ctx admin amount).2.state tokenKey)
        = some ⟨t.Symbol, t.Name, F64.add t.TotalSupply amount, t.Admin⟩ ∧
      ((MintTokens ctx admin amount).1 = .ok ∨
        (MintTokens ctx admin amount).1 = .error .unmarshalAdminAccount ∨
        (MintTokens ctx admin amount).1 = .error .marshalAdminAccount ∨
        (MintTokens ctx admin amount).1 = .error .updateAdminBalance) := by
  have hne : tokenKey ≠ admin := fun h => hadm h.symm
  unfold MintTokens
  split
  · exact Or.inl rfl
  · exact Or.inl rfl
  · next tokenData hg =>
    have hst := GetState_some_fp hg
    split
    · exact Or.inl rfl
    · next token ht =>
      split
      · exact Or.inl rfl
      · dsimp only
        split
        · exact Or.inl rfl
        · next tokenData1 hm =>
          obtain ⟨rfl, hfin⟩ := marshalToken_inv hm
          have hdec : unmarshalToken (ctx.state tokenKey) = some token := by rw [hst]; exact ht
          split
          · exact Or.inl rfl
          · next ctx1 h1 =>
            have h1s := (PutState_state_fp h1).1
            split
            · refine Or.inr ⟨token, hdec, hfin, ?_, Or.inr (Or.inl rfl)⟩
              simp [h1s, put_apply_fp, unmarshalToken]
            · split
              · refine Or.inr ⟨token, hdec, hfin, ?_, Or.inr (Or.inr (Or.inl rfl))⟩
                simp [h1s, put_apply_fp, unmarshalToken]
              · split
                · refine Or.inr ⟨token, hdec, hfin, ?_, Or.inr (Or.inr (Or.inr rfl))⟩
                  simp [h1s, put_apply_fp, unmarshalToken]
                · next ctx2 h2 =>
                  refine Or.inr ⟨token, hdec, hfin, ?_, Or.inl rfl⟩
                  simp [(PutState_state_fp h2).1, h1s, put_apply_fp, hne, unmarshalToken]

theorem InitLedger_held_fp (ctx : Stub) (symbol name : String) (initialSupply : F64)
    (admin : String) (h : ctx.state tokenKey ≠ none) :
    (InitLedger ctx symbol name initialSupply admin).2 = ctx := by
  unfold InitLedger
  split
  · rfl
  · rfl
  · next hg => exact absurd (GetState_some_fp hg) h

theorem Createuser_held_fp (ctx : Stub) (name : String) (h : ctx.state name ≠ none) :
    (Createuser ctx name).2 = ctx := by
  unfold Createuser
  split
  · rfl
  · rfl
  · next hg => exact absurd (GetState_some_fp hg) h

/-- Claim C13 as stated fails.  A mint of `-50` lowers the total supply from
100 to 50.  `ApproveSpender(admin1, TOKEN, 0)`, which is no mint, writes an
account over the metadata and the supply reads 0.  A `MintTokens` that does not
succeed has already raised the supply when it stops after its metadata write:
at an admin account that does not decode (line 126), or, on a store reached by
ledger operations, at an admin balance whose sum with the amount is `+Inf`
(line 136). -/
theorem totalSupply_float_counterexample :
    totalSupplyOf (reliable storeInit) = some (F64.ofNat 100) ∧
    (MintTokens (reliable storeInit) "admin1" (F64.neg (F64.ofNat 50))).1 = .ok ∧
    totalSupplyOf (MintTokens (reliable storeInit) "admin1" (F64.neg (F64.ofNat 50))).2
      = some (F64.ofNat 50) ∧
    F64.le (F64.ofNat 100) (F64.ofNat 50) = false ∧
    (ApproveSpender (reliable storeInit) "admin1" "TOKEN" F64.zero).1 = .ok ∧
    totalSupplyOf (ApproveSpender (reliable storeInit) "admin1" "TOKEN" F64.zero).2
      = some F64.zero ∧
    totalSupplyOf (reliable storeBadAdmin) = some (F64.ofNat 100) ∧
    (MintTokens (reliable storeBadAdmin) "admin1" (F64.ofNat 50)).1
      = .error .unmarshalAdminAccount ∧
    totalSupplyOf (MintTokens (reliable storeBadAdmin) "admin1" (F64.ofNat 50)).2
      = some (F64.ofNat 150) ∧
    totalSupplyOf afterInflation = some (F64.ofNat (10 ^ 308)) ∧
    (MintTokens afterInflation "admin1" (F64.ofNat (5 * 10 ^ 307))).1
      = .error .marshalAdminAccount ∧
    totalSupplyOf (MintTokens afterInflation "admin1" (F64.ofNat (5 * 10 ^ 307))).2
      = some (F64.ofNat (15 * 10 ^ 307)) := by
  decide!

/-- Claim C13, amended: let the store hold metadata whose total supply is a
finite `float64`.  For an invocation that is a `Createuser`, an `InitLedger`,
or has no identity argument equal to `tokenKey`, and whose amount, if it is a
`MintTokens`, is not negative, the total supply stored afterwards is at least
the prior one, and it differs from it only when the invocation is a
`MintTokens` that succeeded or that stopped after its metadata write (at the
decoding, the encoding or the write of the admin account). -/
theorem totalSupply_float (ctx : Stub) (c : Call) (x : F64)
    (hmeta : totalSupplyOf ctx = some x) (hx : x.isJsonNumber = true)
    (hamt : c.isMint = true → F64.lt c.amount F64.zero = false)
    (hid : c.isCreate = true ∨ c.isInit = true ∨ tokenKey ∉ c.identities) :
    ∃ y, totalSupplyOf (c.run ctx).2 = some y ∧ F64.le x y = true ∧
      (y ≠ x → c.isMint = true ∧
        ((c.run ctx).1 = .ok ∨ (c.run ctx).1 = .error .unmarshalAdminAccount ∨
          (c.run ctx).1 = .error .marshalAdminAccount ∨
          (c.run ctx).1 = .error .updateAdminBalance)) := by
  have hsame : (c.run ctx).2.state tokenKey = ctx.state tokenKey →
      ∃ y, totalSupplyOf (c.run ctx).2 = some y ∧ F64.le x y = true ∧
        (y ≠ x → c.isMint = true ∧
          ((c.run ctx).1 = .ok ∨ (c.run ctx).1 = .error .unmarshalAdminAccount ∨
            (c.run ctx).1 = .error .marshalAdminAccount ∨
            (c.run ctx).1 = .error .updateAdminBalance)) := by
    intro h
    refine ⟨x, ?_, le_self_of_jsonNumber hx, fun hne => absurd rfl hne⟩
    unfold totalSupplyOf at hmeta ⊢
    rw [h]; exact hmeta
  have hheld : ctx.state tokenKey ≠ none := by
    intro h0
    simp [totalSupplyOf, h0, unmarshalToken] at hmeta
  cases c with
  | createuser name =>
    apply hsame
    by_cases hn : name = tokenKey
    · subst hn
      simp only [Call.run]
      rw [Createuser_held_fp ctx _ hheld]
    · exact run_frame_fp ctx _ tokenKey (by simp [Call.writeKeys]; exact fun h => hn h.symm)
  | initLedger symbol name initialSupply admin =>
    apply hsame
    simp only [Call.run]
    rw [InitLedger_held_fp ctx _ _ _ _ hheld]
  | mintTokens admin amount =>
    have hadm : admin ≠ tokenKey := by
      intro h
      simp [Call.isCreate, Call.isInit, Call.identities, h] at hid
    have hnn : F64.lt amount F64.zero = false := hamt rfl
    rcases MintTokens_meta_fp ctx admin amount hadm with h | ⟨t, ht, hfin, h, hout⟩
    · exact hsame h
    · have hxt : t.TotalSupply = x := by
        simpa [totalSupplyOf, ht] using hmeta
      rw [hxt] at hfin h
      refine ⟨F64.add x amount, ?_, le_add_of_nonneg hx hnn hfin, fun _ => ⟨rfl, hout⟩⟩
      simp only [Call.run, totalSupplyOf]
      rw [h]
      rfl
  | transferTokens src dst amount =>
    apply hsame
    apply run_frame_fp
    simpa [Call.isCreate, Call.isInit, Call.identities, Call.writeKeys] using hid
  | burnTokens user amount =>
    apply hsame
    apply run_frame_fp
    simpa [Call.isCreate, Call.isInit, Call.identities, Call.writeKeys] using hid
  | approveSpender owner spender amount =>
    apply hsame
    apply run_frame_fp
    simpa [Call.isCreate, Call.isInit, Call.identities, Call.writeKeys] using hid
  | transferFrom owner spender recipient amount =>
    apply hsame
    apply run_frame_fp
    have := hid
    simp [Call.isCreate, Call.isInit, Call.identities] at this
    simp [Call.writeKeys]
    tauto

/-- Claim C13, amended, at a concrete input: `admin1` mints 50 on a supply of
100. -/
theorem totalSupply_float_witness :
    ∃ y, totalSupplyOf (Call.run (reliable storeInit) (.mintTokens "admin1" (F64.ofNat 50))).2
        = some y ∧
      F64.le (F64.ofNat 100) y = true ∧
      (y ≠ F64.ofNat 100 → Call.isMint (.mintTokens "admin1" (F64.ofNat 50)) = true ∧
        ((Call.run (reliable storeInit) (.mintTokens "admin1" (F64.ofNat 50))).1 = .ok ∨
          (Call.run (reliable storeInit) (.mintTokens "admin1" (F64.ofNat 50))).1
            = .error .unmarshalAdminAccount ∨
          (Call.run (reliable storeInit) (.mintTokens "admin1" (F64.ofNat 50))).1
            = .error .marshalAdminAccount ∨
          (Call.run (reliable storeInit) (.mintTokens "admin1" (F64.ofNat 50))).1
            = .error .updateAdminBalance)) :=
  totalSupply_float (reliable storeInit) (.mintTokens "admin1" (F64.ofNat 50)) (F64.ofNat 100)
    (by decide!) (by decide!) (fun _ => by decide!) (Or.inr (Or.inr (by decide!)))

/-! ## C15: a validation failure leaves the store as it was -/

theorem TransferTokens_stops_fp {ctx : Stub} (hput : ∀ k, ctx.putFails k = false)
    (src dst : String) (amount : F64) :
    (TransferTokens ctx src dst amount).1 = .ok ∨ (TransferTokens ctx src dst amount).2 = ctx ∨
      ∃ e, (TransferTokens ctx src dst amount).1 = .error e ∧ e.isMarshal = true := by
  unfold TransferTokens
  simp only [Stub.PutState, hput, Bool.false_eq_true, ↓reduceIte]
  iterate 10 (all_goals (try split))
  all_goals simp [Err.isMarshal]

theorem BurnTokens_stops_fp {ctx : Stub} (hput : ∀ k, ctx.putFails k = false)
    (user : String) (amount : F64) :
    (BurnTokens ctx user amount).1 = .ok ∨ (BurnTokens ctx user amount).2 = ctx ∨
      ∃ e, (BurnTokens ctx user amount).1 = .error e ∧ e.isMarshal = true := by
  unfold BurnTokens
  simp only [Stub.PutState, hput, Bool.false_eq_true, ↓reduceIte]
  iterate 8 (all_goals (try split))
  all_goals simp [Err.isMarshal]

theorem Createuser_stops_fp {ctx : Stub} (hput : ∀ k, ctx.putFails k = false)
    (name : String) :
    (Createuser ctx name).1 = .ok ∨ (Createuser ctx name).2 = ctx ∨
      ∃ e, (Createuser ctx name).1 = .error e ∧ e.isMarshal = true := by
  unfold Createuser
  simp only [Stub.PutState, hput, Bool.false_eq_true, ↓reduceIte]
  iterate 8 (all_goals (try split))
  all_goals simp [Err.isMarshal]

theorem InitLedger_stops_fp {ctx : Stub} (hput : ∀ k, ctx.putFails k = false)
    (symbol name : String) (initialSupply : F64) (admin : String) :
    (InitLedger ctx symbol name initialSupply admin).1 = .ok
      ∨ (InitLedger ctx symbol name initialSupply admin).2 = ctx ∨
      ∃ e, (InitLedger ctx symbol name initialSupply admin).1 = .error e
        ∧ e.isMarshal = true := by
  unfold InitLedger
  simp only [Stub.PutState, hput, Bool.false_eq_true, ↓reduceIte]
  iterate 8 (all_goals (try split))
  all_goals simp [Err.isMarshal]

theorem ApproveSpender_stops_fp {ctx : Stub} (hput : ∀ k, ctx.putFails k = false)
    (owner spender : String) (amount : F64) :
    (ApproveSpender ctx owner spender amount).1 = .ok
      ∨ (ApproveSpender ctx owner spender amount).2 = ctx ∨
      ∃ e, (ApproveSpender ctx owner spender amount).1 = .error e ∧ e.isMarshal = true := by
  unfold ApproveSpender
  simp only [Stub.PutState, hput, Bool.false_eq_true, ↓reduceIte]
  iterate 12 (all_goals (try split))
  all_goals simp [Err.isMarshal]

theorem TransferFrom_stops_fp {ctx : Stub} (hput : ∀ k, ctx.putFails k = false)
    (owner spender recipient : String) (amount : F64) :
    (TransferFromApprovedSpenders ctx owner spender recipient amount).1 = .ok
      ∨ (TransferFromApprovedSpenders ctx owner spender recipient amount).2 = ctx ∨
      ∃ e, (TransferFromApprovedSpenders ctx owner spender recipient amount).1 = .error e
        ∧ e.isMarshal = true := by
  unfold TransferFromApprovedSpenders
  simp only [Stub.PutState, hput, Bool.false_eq_true, ↓reduceIte]
  iterate 15 (all_goals (try split))
  all_goals simp [Err.isMarshal]

theorem mintAdminAccount_some_fp (ctx : Stub) (h : AllDecode ctx.state) (k : String) :
    ∃ u, mintAdminAccount (ctx.GetState k) = some u := by
  unfold mintAdminAccount
  split
  · next d hg =>
    obtain ⟨u, hu⟩ := h k d (GetState_some_fp hg)
    exact ⟨u, by simp [unmarshalUser, hu]⟩
  · exact ⟨_, rfl⟩

theorem MintTokens_stops_fp {ctx : Stub} (hput : ∀ k, ctx.putFails k = false)
    (hdec : AllDecode ctx.state) (admin : String) (amount : F64) :
    (MintTokens ctx admin amount).1 = .ok ∨ (MintTokens ctx admin amount).2 = ctx ∨
      ∃ e, (MintTokens ctx admin amount).1 = .error e ∧ e.isMarshal = true := by
  unfold MintTokens
  simp only [Stub.PutState, hput, Bool.false_eq_true, ↓reduceIte]
  split
  · simp
  · simp
  · split
    · simp
    · next token ht =>
      split
      · simp
      · split
        · simp [Err.isMarshal]
        · next tokenData1 hm =>
          obtain ⟨u, hu⟩ := mintAdminAccount_some_fp
            ⟨ctx.state.put tokenKey tokenData1, ctx.getFails, ctx.putFails⟩
            (AllDecode_put_fp hdec _ (marshalled_token hm)) admin
          simp only [hu]
          split
          · simp [Err.isMarshal]
          · simp

theorem run_stops_fp (ctx : Stub) (c : Call) (hput : ∀ k, ctx.putFails k = false)
    (hdec : AllDecode ctx.state) :
    (c.run ctx).1 = .ok ∨ (c.run ctx).2 = ctx ∨
      ∃ e, (c.run ctx).1 = .error e ∧ e.isMarshal = true := by
  cases c with
  | createuser name => exact Createuser_stops_fp hput name
  | initLedger symbol name initialSupply admin =>
    exact InitLedger_stops_fp hput symbol name initialSupply admin
  | mintTokens admin amount => exact MintTokens_stops_fp hput hdec admin amount
  | transferTokens src dst amount => exact TransferTokens_stops_fp hput src dst amount
  | burnTokens user amount => exact BurnTokens_stops_fp hput user amount
  | approveSpender owner spender amount =>
    exact ApproveSpender_stops_fp hput owner spender amount
  | transferFrom owner spender recipient amount =>
    exact TransferFrom_stops_fp hput owner spender recipient amount

/-- Claim C15: on a stub reachable from the empty store by ledger operations
whose writes do not fail, an invocation that returns an error other than an
encode failure (so any not-found, already-exists, unauthorized,
insufficient-balance, allowance-exceeded, decode or read error) leaves the
stub, hence the store, as it was. -/
theorem validation_failure_leaves_store (ctx : Stub) (c : Call) (e : Err)
    (hreach : Reachable ctx) (herr : (c.run ctx).1 = .error e)
    (hkind : e.isMarshal = false) :
    (c.run ctx).2 = ctx := by
  obtain ⟨hput, hdec⟩ := Reachable_inv_fp hreach
  rcases run_stops_fp ctx c hput hdec with h | h | ⟨e2, h, he2⟩
  · rw [h] at herr; cases herr
  · exact h
  · rw [h] at herr
    cases herr
    rw [hkind] at he2
    cases he2

/-- Claim C15 at a concrete input: after initialisation, a mint by an
identity that is not the admin. -/
theorem validation_failure_leaves_store_witness :
    (Call.run afterInit (.mintTokens "intruder" (F64.ofNat 5))).2 = afterInit :=
  validation_failure_leaves_store afterInit (.mintTokens "intruder" (F64.ofNat 5))
    .onlyAdminCanMint (Reachable.step _ (Reachable.init _)) (by decide!) rfl

/-- The errors left out of C15 are returned after a write.  After
`InitLedger` with supply `1e308` and a transfer of `7e307` from the admin to
itself, a mint of `5e307` writes the new supply `1.5e308` (line 116) and then
returns the encode error of the admin account (line 136), whose balance would
be `+Inf`. -/
theorem encode_failure_after_write :
    Reachable afterInflation ∧
    totalSupplyOf afterInflation = some (F64.ofNat (10 ^ 308)) ∧
    GetBalance afterInflation "admin1" = .ok (F64.ofNat (17 * 10 ^ 307)) ∧
    (MintTokens afterInflation "admin1" (F64.ofNat (5 * 10 ^ 307))).1
      = .error .marshalAdminAccount ∧
    totalSupplyOf (MintTokens afterInflation "admin1" (F64.ofNat (5 * 10 ^ 307))).2
      = some (F64.ofNat (15 * 10 ^ 307)) := by
  refine ⟨Reachable.step _ (Reachable.step _ (Reachable.init _)), ?_, ?_, ?_, ?_⟩ <;> decide!

/-! ## The evaluated inputs of the exact model, on the `float64` model -/

/-- The scenario of C17 on the `float64` model: the same outcomes and values,
these amounts being exact in `float64` and no encoding failing. -/
theorem scenario_float :
    (InitLedger (reliable emptyStore) "TOK" "Tok" (F64.ofNat 1000) "admin1").1 = .ok ∧
    GetBalance afterInit "admin1" = .ok (F64.ofNat 1000) ∧
    (MintTokens afterInit "admin1" (F64.ofNat 500)).1 = .ok ∧
    GetBalance (MintTokens afterInit "admin1" (F64.ofNat 500)).2 "admin1"
      = .ok (F64.ofNat 1500) ∧
    totalSupplyOf (MintTokens afterInit "admin1" (F64.ofNat 500)).2 = some (F64.ofNat 1500) ∧
    (TransferTokens (MintTokens afterInit "admin1" (F64.ofNat 500)).2
      "admin1" "u1" (F64.ofNat 300)).1 = .ok ∧
    GetBalance (TransferTokens (MintTokens afterInit "admin1" (F64.ofNat 500)).2
      "admin1" "u1" (F64.ofNat 300)).2 "admin1" = .ok (F64.ofNat 1200) ∧
    GetBalance (TransferTokens (MintTokens afterInit "admin1" (F64.ofNat 500)).2
      "admin1" "u1" (F64.ofNat 300)).2 "u1" = .ok (F64.ofNat 300) ∧
    (BurnTokens (TransferTokens (MintTokens afterInit "admin1" (F64.ofNat 500)).2
      "admin1" "u1" (F64.ofNat 300)).2 "u1" (F64.ofNat 100)).1 = .ok ∧
    GetBalance (BurnTokens (TransferTokens (MintTokens afterInit "admin1" (F64.ofNat 500)).2
      "admin1" "u1" (F64.ofNat 300)).2 "u1" (F64.ofNat 100)).2 "u1" = .ok (F64.ofNat 200) ∧
    totalSupplyOf (BurnTokens (TransferTokens (MintTokens afterInit "admin1" (F64.ofNat 500)).2
      "admin1" "u1" (F64.ofNat 300)).2 "u1" (F64.ofNat 100)).2 = some (F64.ofNat 1500) := by
  decide!

/-- The two code slips of C9 and C20 on the `float64` model: a missing spender
gives the decode error in `ApproveSpender` and in
`TransferFromApprovedSpenders`, and an owner created as the recipient of a
transfer makes `ApproveSpender` panic on its nil allowance map. -/
theorem slips_float :
    storeX "s" = none ∧
    (ApproveSpender (reliable storeX) "x" "s" (F64.ofNat 5)).1 = .error .unmarshalOwnerData ∧
    (TransferFromApprovedSpenders (reliable storeX) "x" "s" "r" (F64.ofNat 5)).1
      = .error .unmarshalOwnerData ∧
    (TransferTokens afterInit "admin1" "u1" (F64.ofNat 300)).1 = .ok ∧
    (ApproveSpender (TransferTokens afterInit "admin1" "u1" (F64.ofNat 300)).2
      "u1" "admin1" (F64.ofNat 100)).1 = .panic := by
  decide!

end Fp

end Erc20
